import Mathlib

/-!
# NomiSafe backend — formal model of the policy extraction and verification pipeline

A shallow embedding, in Lean 4, of the core logic of the NomiSafe backend
(`policies/ai_extractor.py`, `policies/views.py`, `policies/models.py`):

* the tolerant JSON response parser (`PolicyAIExtractor._parse_json_response`),
  together with a model of Python's strict `json.loads` on the JSON grammar;
* the Gemini upload retry loop (`PolicyAIExtractor._upload_to_gemini`);
* the document classifier and extraction pipeline
  (`_validate_insurance_document`, `_identify_insurance_type`,
  `extract_policy_preview`);
* the background extraction job (`process_policy_extraction_background`);
* the relational data model (`policies/models.py`) and the verification commit
  (`PolicyVerifyView.post` / `_save_verified_data`), with Django's
  `transaction.atomic` modelled as all-or-nothing state update and Postgres
  `varchar(n)` / NOT NULL column constraints modelled explicitly;
* the dashboard premium normalisation (`DashboardStatsView._convert_to_monthly_premium`).

Machine strings are Lean `String`s restricted to the ASCII behaviour of the
Python string methods involved; `Decimal` values are modelled as exact
rationals (`ℚ`).
-/

namespace NomiSafe

/-! ## Python string primitives (ASCII fragment) -/

/-- Python's notion of whitespace for `str.strip` and the regex class `\s`
(ASCII fragment): space, tab, newline, carriage return, vertical tab, form feed. -/
def pyIsSpace (c : Char) : Bool :=
  c = ' ' || c = '\t' || c = '\n' || c = '\r' || c = '\x0b' || c = '\x0c'

/-- Python `str.strip()` (ASCII whitespace). -/
def pyStrip (s : String) : String :=
  String.mk (((s.data.dropWhile pyIsSpace).reverse.dropWhile pyIsSpace).reverse)

/-- Python `str.upper()` (ASCII fragment). -/
def pyUpper (s : String) : String :=
  String.mk (s.data.map Char.toUpper)

/-- Python `str.lower()` (ASCII fragment). -/
def pyLower (s : String) : String :=
  String.mk (s.data.map Char.toLower)

/-- `needle in haystack` for Python strings: substring containment. -/
def containsSub (haystack needle : String) : Bool :=
  (List.range (haystack.data.length + 1)).any
    (fun i => needle.data.isPrefixOf (haystack.data.drop i))

/-! ## JSON values and a model of Python `json.loads`

`json.loads` is the Python standard library's strict JSON parser; the model
below implements the JSON grammar it accepts (objects, arrays, strings with
escapes, number lexemes, `true`/`false`/`null`, plus the CPython extensions
`NaN`/`Infinity`/`-Infinity`), rejecting trailing commas, unescaped control
characters, invalid escapes and trailing garbage.  Numbers are kept as their
source lexemes; objects follow `dict` semantics (first key position kept,
later duplicate keys overwrite the value). -/

inductive JValue where
  | null : JValue
  | bool : Bool → JValue
  | num : String → JValue
  | str : String → JValue
  | arr : List JValue → JValue
  | obj : List (String × JValue) → JValue

/-- JSON inter-token whitespace (as accepted by `json.loads`). -/
def isJsonWs (c : Char) : Bool :=
  c = ' ' || c = '\t' || c = '\n' || c = '\r'

def skipJsonWs (cs : List Char) : List Char := cs.dropWhile isJsonWs

/-- Consume an expected literal character sequence. -/
def dropLit : List Char → List Char → Option (List Char)
  | [], cs => some cs
  | l :: ls, c :: cs => if c = l then dropLit ls cs else none
  | _ :: _, [] => none

def hexVal (c : Char) : Option Nat :=
  if '0' ≤ c && c ≤ '9' then some (c.toNat - 48)
  else if 'a' ≤ c && c ≤ 'f' then some (c.toNat - 87)
  else if 'A' ≤ c && c ≤ 'F' then some (c.toNat - 55)
  else none

/-- Single-character JSON string escapes. -/
def escChar (c : Char) : Option Char :=
  match c with
  | '"' => some '"'
  | '\\' => some '\\'
  | '/' => some '/'
  | 'b' => some (Char.ofNat 8)
  | 'f' => some (Char.ofNat 12)
  | 'n' => some '\n'
  | 'r' => some '\r'
  | 't' => some '\t'
  | _ => none

/-- Parse the body of a JSON string after the opening quote; returns the
decoded characters and the remainder after the closing quote. -/
def parseStringBody : List Char → Option (List Char × List Char)
  | [] => none
  | '"' :: rest => some ([], rest)
  | '\\' :: 'u' :: a :: b :: c :: d :: rest =>
      match hexVal a, hexVal b, hexVal c, hexVal d with
      | some ha, some hb, some hc, some hd =>
          match parseStringBody rest with
          | some (s, r) => some (Char.ofNat (((ha * 16 + hb) * 16 + hc) * 16 + hd) :: s, r)
          | none => none
      | _, _, _, _ => none
  | '\\' :: e :: rest =>
      match escChar e with
      | some ec =>
          match parseStringBody rest with
          | some (s, r) => some (ec :: s, r)
          | none => none
      | none => none
  | c :: rest =>
      if c.toNat < 32 then none
      else
        match parseStringBody rest with
        | some (s, r) => some (c :: s, r)
        | none => none

def takeDigits (cs : List Char) : List Char × List Char :=
  (cs.takeWhile Char.isDigit, cs.dropWhile Char.isDigit)

/-- Lex the integer part of a JSON number: `0`, or a nonzero digit followed
by digits (a leading `0` is never followed by more digits). -/
def lexIntPart : List Char → Option (List Char × List Char)
  | '0' :: rest => some (['0'], rest)
  | c :: rest =>
      if c.isDigit then
        let p := takeDigits rest
        some (c :: p.1, p.2)
      else none
  | [] => none

/-- Lex an optional fraction part `.digits`. -/
def lexFrac (cs : List Char) : List Char × List Char :=
  match cs with
  | '.' :: c :: rest =>
      if c.isDigit then
        let p := takeDigits rest
        ('.' :: c :: p.1, p.2)
      else ([], cs)
  | _ => ([], cs)

/-- Lex an optional exponent part `[eE][+-]?digits`. -/
def lexExp (cs : List Char) : List Char × List Char :=
  match cs with
  | e :: s :: d :: rest =>
      if (e = 'e' || e = 'E') && (s = '+' || s = '-') && d.isDigit then
        let p := takeDigits rest
        (e :: s :: d :: p.1, p.2)
      else if (e = 'e' || e = 'E') && s.isDigit then
        let p := takeDigits (d :: rest)
        (e :: s :: p.1, p.2)
      else ([], cs)
  | e :: s :: [] =>
      if (e = 'e' || e = 'E') && s.isDigit then ([e, s], []) else ([], cs)
  | _ => ([], cs)

/-- Lex a full JSON number lexeme (sign, integer, fraction, exponent). -/
def lexNumber (cs : List Char) : Option (List Char × List Char) :=
  match cs with
  | '-' :: rest =>
      match lexIntPart rest with
      | some (ip, r1) =>
          let fr := lexFrac r1
          let ex := lexExp fr.2
          some ('-' :: (ip ++ fr.1 ++ ex.1), ex.2)
      | none => none
  | _ =>
      match lexIntPart cs with
      | some (ip, r1) =>
          let fr := lexFrac r1
          let ex := lexExp fr.2
          some (ip ++ fr.1 ++ ex.1, ex.2)
      | none => none

/-- Insert a key into an association list with Python `dict` semantics:
an existing key keeps its position but its value is overwritten. -/
def dictInsert (fs : List (String × JValue)) (k : String) (v : JValue) :
    List (String × JValue) :=
  match fs with
  | [] => [(k, v)]
  | (k0, v0) :: t => if k0 = k then (k0, v) :: t else (k0, v0) :: dictInsert t k v

def dictOfFields (fs : List (String × JValue)) : List (String × JValue) :=
  fs.foldl (fun acc kv => dictInsert acc kv.1 kv.2) []

/-- Parser modes: a single value, the non-empty tail of an array, the
non-empty tail of an object. -/
inductive PMode where
  | value : PMode
  | arrItems : PMode
  | objItems : PMode

inductive POut where
  | pval : JValue → POut
  | plist : List JValue → POut
  | pfields : List (String × JValue) → POut

/-- Fuel-indexed recursive-descent JSON parser (the fuel only ensures
structural termination; `jsonLoads` supplies enough for any input). -/
def parseJ (fuel : Nat) (m : PMode) (cs : List Char) : Option (POut × List Char) :=
  match fuel with
  | 0 => none
  | Nat.succ f =>
    match m with
    | PMode.value =>
      match skipJsonWs cs with
      | [] => none
      | 'n' :: rest =>
          match dropLit ['u', 'l', 'l'] rest with
          | some r => some (POut.pval JValue.null, r)
          | none => none
      | 't' :: rest =>
          match dropLit ['r', 'u', 'e'] rest with
          | some r => some (POut.pval (JValue.bool true), r)
          | none => none
      | 'f' :: rest =>
          match dropLit ['a', 'l', 's', 'e'] rest with
          | some r => some (POut.pval (JValue.bool false), r)
          | none => none
      | 'N' :: rest =>
          match dropLit ['a', 'N'] rest with
          | some r => some (POut.pval (JValue.num "NaN"), r)
          | none => none
      | 'I' :: rest =>
          match dropLit ['n', 'f', 'i', 'n', 'i', 't', 'y'] rest with
          | some r => some (POut.pval (JValue.num "Infinity"), r)
          | none => none
      | '-' :: 'I' :: rest =>
          match dropLit ['n', 'f', 'i', 'n', 'i', 't', 'y'] rest with
          | some r => some (POut.pval (JValue.num "-Infinity"), r)
          | none => none
      | '"' :: rest =>
          match parseStringBody rest with
          | some (s, r) => some (POut.pval (JValue.str (String.mk s)), r)
          | none => none
      | '[' :: rest =>
          match skipJsonWs rest with
          | ']' :: r => some (POut.pval (JValue.arr []), r)
          | r =>
              match parseJ f PMode.arrItems r with
              | some (POut.plist vs, r2) => some (POut.pval (JValue.arr vs), r2)
              | _ => none
      | '{' :: rest =>
          match skipJsonWs rest with
          | '}' :: r => some (POut.pval (JValue.obj []), r)
          | r =>
              match parseJ f PMode.objItems r with
              | some (POut.pfields fs, r2) =>
                  some (POut.pval (JValue.obj (dictOfFields fs)), r2)
              | _ => none
      | other =>
          match lexNumber other with
          | some (lexeme, r) => some (POut.pval (JValue.num (String.mk lexeme)), r)
          | none => none
    | PMode.arrItems =>
      match parseJ f PMode.value cs with
      | some (POut.pval v, r1) =>
          match skipJsonWs r1 with
          | ',' :: r2 =>
              match parseJ f PMode.arrItems r2 with
              | some (POut.plist vs, r3) => some (POut.plist (v :: vs), r3)
              | _ => none
          | ']' :: r2 => some (POut.plist [v], r2)
          | _ => none
      | _ => none
    | PMode.objItems =>
      match skipJsonWs cs with
      | '"' :: rest =>
          match parseStringBody rest with
          | some (k, r1) =>
              match skipJsonWs r1 with
              | ':' :: r2 =>
                  match parseJ f PMode.value r2 with
                  | some (POut.pval v, r3) =>
                      match skipJsonWs r3 with
                      | ',' :: r4 =>
                          match parseJ f PMode.objItems r4 with
                          | some (POut.pfields fs, r5) =>
                              some (POut.pfields ((String.mk k, v) :: fs), r5)
                          | _ => none
                      | '}' :: r4 => some (POut.pfields [(String.mk k, v)], r4)
                      | _ => none
                  | _ => none
              | _ => none
          | none => none
      | _ => none

/-- Model of Python `json.loads`: parse one JSON value, allow surrounding
whitespace, reject any trailing data (`Extra data` error). `none` models a
raised `json.JSONDecodeError`. -/
def jsonLoads (s : String) : Option JValue :=
  match parseJ (2 * s.length + 8) PMode.value s.data with
  | some (POut.pval v, rest) => if skipJsonWs rest = [] then some v else none
  | _ => none

/-! ## `PolicyAIExtractor._parse_json_response` -/

/-- One pass of Python `re.sub(r',\s*([}\]])', r'\1', text)`: scanning left to
right, a comma followed by whitespace and a closing brace/bracket is replaced
by just the brace/bracket; scanning resumes after the replacement. The fuel is
the input length (each step consumes at least one character). -/
def subTrailingCommasF : Nat → List Char → List Char
  | 0, cs => cs
  | _ + 1, [] => []
  | f + 1, c :: rest =>
      if c = ',' then
        match rest.dropWhile pyIsSpace with
        | '}' :: r2 => '}' :: subTrailingCommasF f r2
        | ']' :: r2 => ']' :: subTrailingCommasF f r2
        | _ => c :: subTrailingCommasF f rest
      else c :: subTrailingCommasF f rest

def removeTrailingCommas (s : String) : String :=
  String.mk (subTrailingCommasF s.length s.data)

/-- `str.strip()` on a character list. -/
def stripChars (cs : List Char) : List Char :=
  ((cs.dropWhile pyIsSpace).reverse.dropWhile pyIsSpace).reverse

/-- The cleanup applied by `_parse_json_response` when the strict parse fails:
strip, remove a leading ```` ```json ````/` ``` ` marker and a trailing
` ``` ` marker, strip again, then remove trailing commas before `}`/`]`. -/
def cleanResponse (s : String) : String :=
  let t := stripChars s.data
  let t := if List.isPrefixOf "```json".data t then t.drop 7
           else if List.isPrefixOf "```".data t then t.drop 3
           else t
  let t := if List.isPrefixOf "```".data t.reverse then (t.reverse.drop 3).reverse else t
  let t := stripChars t
  String.mk (subTrailingCommasF t.length t)

/-- The `ValueError` message raised when both parse attempts fail (the
interpolated `str(e)` decode detail is abstracted). -/
def parseFailMsg : String :=
  "Could not parse JSON response from AI model. The AI returned invalid JSON: JSONDecodeError"

/-- `PolicyAIExtractor._parse_json_response`: strict parse of the raw text;
on failure, parse of the cleaned text; on repeated failure, a `ValueError`
(modelled as `Except.error`) carrying the decode failure. -/
def parseJsonResponse (s : String) : Except String JValue :=
  match jsonLoads s with
  | some v => Except.ok v
  | none =>
      match jsonLoads (cleanResponse s) with
      | some v => Except.ok v
      | none => Except.error parseFailMsg

/-! ## `PolicyAIExtractor._upload_to_gemini` — size gate and retry loop

The upload loop is modelled against an environment assigning an outcome to
each attempt (the external boundary): success, a `BrokenPipeError`, or a
generic exception with a message.  The model records the result, the list of
backoff sleeps performed, and the number of upload calls made. -/

inductive UploadOutcome where
  | success : UploadOutcome
  | brokenPipe : String → UploadOutcome
  | err : String → UploadOutcome

/-- The transient-error test applied to a generic exception message:
`'assign requested address' in msg.lower() or '503' in msg or
'temporarily unavailable' in msg.lower()`. -/
def isTransientMsg (m : String) : Bool :=
  containsSub (pyLower m) "assign requested address"
    || containsSub m "503"
    || containsSub (pyLower m) "temporarily unavailable"

/-- An attempt outcome after which the loop retries (when attempts remain):
a broken pipe, or a generic error whose message is transient. -/
def transientOutcome : UploadOutcome → Bool
  | UploadOutcome.success => false
  | UploadOutcome.brokenPipe _ => true
  | UploadOutcome.err m => isTransientMsg m

/-- Result of the upload routine: outcome, backoff sleeps performed (in
seconds, in order), number of upload calls made. -/
structure UploadRes where
  result : Except String Unit
  sleeps : List Nat
  attemptsMade : Nat

def brokenPipeFinalMsg : String :=
  "Failed to upload PDF to AI service after multiple attempts. This could be due to network issues or file size. Please try again."

/-- The retry loop of `_upload_to_gemini` (`for attempt in range(max_retries)`
with `max_retries = 5`, `retry_delay = 3`), counting down the remaining
attempts:

* success returns;
* `BrokenPipeError`: if attempts remain, sleep `retry_delay` and double it,
  else raise the generic multiple-attempts `ValueError`;
* other exceptions: if the message is transient and attempts remain, sleep
  `retry_delay` and set it to `min(retry_delay * 2, 30)`; otherwise raise
  `ValueError` with the message appended. -/
def uploadGo (outcomes : Nat → UploadOutcome) : Nat → Nat → Nat → UploadRes
  | 0, _, _ => { result := Except.error "loop exhausted", sleeps := [], attemptsMade := 0 }
  | Nat.succ rem, idx, delay =>
      match outcomes idx with
      | UploadOutcome.success =>
          { result := Except.ok (), sleeps := [], attemptsMade := 1 }
      | UploadOutcome.brokenPipe _ =>
          if 0 < rem then
            let r := uploadGo outcomes rem (idx + 1) (delay * 2)
            { result := r.result, sleeps := delay :: r.sleeps, attemptsMade := r.attemptsMade + 1 }
          else
            { result := Except.error brokenPipeFinalMsg, sleeps := [], attemptsMade := 1 }
      | UploadOutcome.err m =>
          if isTransientMsg m && 0 < rem then
            let r := uploadGo outcomes rem (idx + 1) (min (delay * 2) 30)
            { result := r.result, sleeps := delay :: r.sleeps, attemptsMade := r.attemptsMade + 1 }
          else
            { result := Except.error ("Failed to upload PDF to AI service: " ++ m),
              sleeps := [], attemptsMade := 1 }

/-- The size-limit error message (the interpolated `{file_size_mb:.2f}` figure
is abstracted). -/
def sizeLimitMsg : String :=
  "PDF file too large. Maximum size is 20 MB."

/-- `_upload_to_gemini`: computes `file_size_mb = bytes / (1024 * 1024)`,
rejects files over 20 MB before making any upload call, then runs the retry
loop. -/
def uploadToGemini (sizeBytes : Nat) (outcomes : Nat → UploadOutcome) : UploadRes :=
  if (sizeBytes : ℚ) / (1024 * 1024) > 20 then
    { result := Except.error sizeLimitMsg, sleeps := [], attemptsMade := 0 }
  else
    uploadGo outcomes 5 0 3

/-! ## Classifier and extraction pipeline (`extract_policy_preview`)

The external AI model boundary is an environment supplying the outcome of
each upload attempt and the response text of each `generate_content` call
(validation, type identification, extraction — the three type-specific
extractors differ only in the prompt, so one response text models all). -/

structure GeminiEnv where
  uploads : Nat → UploadOutcome
  validateText : String
  identifyText : String
  extractText : String

/-- Text after the first `:` of a character list (`s.split(':', 1)[1]`),
or `none` when no colon occurs. -/
def afterFirstColon : List Char → Option (List Char)
  | [] => none
  | ':' :: rest => some rest
  | _ :: rest => afterFirstColon rest

/-- `PolicyAIExtractor._validate_insurance_document` applied to the model
response text: returns `(is_valid, message)`. -/
def validateInsuranceDocument (responseText : String) : Bool × String :=
  let result := pyStrip responseText
  if List.isPrefixOf "VALID".data (pyUpper result).data then
    (true, "Valid insurance policy document")
  else if List.isPrefixOf "INVALID".data (pyUpper result).data then
    let reason :=
      match afterFirstColon result.data with
      | some tail => String.mk (stripChars tail)
      | none => "This document is not an insurance policy"
    (false, "Invalid document: " ++ reason ++ ". Please upload only Life, Health, or Motor insurance policy documents.")
  else
    (false, "Unable to verify this as a valid insurance policy document. Please upload only Life, Health, or Motor insurance policy documents.")

/-- `PolicyAIExtractor._identify_insurance_type` applied to the model
response text: `response.text.strip().upper()`, collapsed to `OTHER` when not
exactly `LIFE`, `HEALTH` or `MOTOR`. -/
def identifyInsuranceType (responseText : String) : String :=
  let insurance_type := pyUpper (pyStrip responseText)
  if insurance_type = "LIFE" || insurance_type = "HEALTH" || insurance_type = "MOTOR" then
    insurance_type
  else "OTHER"

def categoryRejectMsg : String :=
  "This document doesn't appear to be a valid Health, Life, or Motor insurance policy. Please upload only insurance policy documents."

/-- Python dict item assignment `extracted_data['insurance_type'] = ...`:
raises `TypeError` when the parsed JSON value is not an object. -/
def setItem (v : JValue) (k : String) (w : JValue) : Except String JValue :=
  match v with
  | JValue.obj fs => Except.ok (JValue.obj (dictInsert fs k w))
  | _ => Except.error "TypeError: object does not support item assignment"

/-- Calls to `generate_content` made and upload attempts made, to state
"no model call happens" properties. -/
structure ExtractStats where
  uploadAttempts : Nat
  modelCalls : Nat

/-- `PolicyAIExtractor.extract_policy_preview`: upload, validity check, type
identification, type-specific extraction, tolerant JSON parse, and insertion
of the `insurance_type` key into the result. -/
def extractPolicyPreview (env : GeminiEnv) (sizeBytes : Nat) :
    Except String JValue × ExtractStats :=
  let up := uploadToGemini sizeBytes env.uploads
  match up.result with
  | Except.error e => (Except.error e, { uploadAttempts := up.attemptsMade, modelCalls := 0 })
  | Except.ok _ =>
    let vres := validateInsuranceDocument env.validateText
    if vres.1 = false then
      (Except.error vres.2, { uploadAttempts := up.attemptsMade, modelCalls := 1 })
    else
      let itype := identifyInsuranceType env.identifyText
      if itype = "LIFE" || itype = "HEALTH" || itype = "MOTOR" then
        match parseJsonResponse env.extractText with
        | Except.error e =>
            (Except.error e, { uploadAttempts := up.attemptsMade, modelCalls := 3 })
        | Except.ok data =>
            match setItem data "insurance_type" (JValue.str itype) with
            | Except.ok data2 =>
                (Except.ok data2, { uploadAttempts := up.attemptsMade, modelCalls := 3 })
            | Except.error e =>
                (Except.error e, { uploadAttempts := up.attemptsMade, modelCalls := 3 })
      else
        (Except.error categoryRejectMsg, { uploadAttempts := up.attemptsMade, modelCalls := 2 })

/-! ## Relational data model (`policies/models.py`)

Rows are Lean structures; tables are lists of rows.  Postgres (the configured
production backend) enforces `varchar(n)` lengths and NOT NULL columns, so
those checks are modelled on every row write; `DecimalField` values are exact
rationals and their precision constraints are not modelled.  Timestamps are
abstract `Nat` clock values.  `Decimal`/date coercion (`_to_decimal`,
`_parse_date`) is modelled below. -/

inductive EStatus where
  | PENDING : EStatus
  | PROCESSING : EStatus
  | COMPLETED : EStatus
  | FAILED : EStatus
deriving DecidableEq

/-- A calendar date `(year, month, day)` as produced by `_parse_date`. -/
abbrev PDate := Nat × Nat × Nat

def isLeap (y : Nat) : Bool := y % 4 = 0 && (y % 100 ≠ 0 || y % 400 = 0)

def daysInMonth (y m : Nat) : Nat :=
  if m = 2 then (if isLeap y then 29 else 28)
  else if m = 4 || m = 6 || m = 9 || m = 11 then 30
  else 31

def splitOnDash : List Char → List (List Char)
  | [] => [[]]
  | '-' :: rest => [] :: splitOnDash rest
  | c :: rest =>
      match splitOnDash rest with
      | g :: gs => (c :: g) :: gs
      | [] => [[c]]

def allDigits (cs : List Char) : Bool := cs.all Char.isDigit

def natOfDigits (cs : List Char) : Nat :=
  cs.foldl (fun a c => a * 10 + (c.toNat - 48)) 0

/-- `datetime.strptime(s, '%Y-%m-%d').date()`: a 4-digit year, 1-2 digit
month and day, and a valid calendar date (year at least 1); `none` models a
raised `ValueError`. -/
def strptimeYmd (s : String) : Option PDate :=
  match splitOnDash s.data with
  | [ys, ms, ds] =>
      if ys.length = 4 && allDigits ys
          && (ms.length = 1 || ms.length = 2) && allDigits ms
          && (ds.length = 1 || ds.length = 2) && allDigits ds then
        let y := natOfDigits ys
        let m := natOfDigits ms
        let d := natOfDigits ds
        if 1 ≤ y && 1 ≤ m && m ≤ 12 && 1 ≤ d && d ≤ daysInMonth y m then
          some (y, m, d)
        else none
      else none
  | _ => none

/-- `PolicyVerifyView._parse_date`: `None`/empty/the literal string `null`
map to `None`; unparsable dates map to `None` instead of raising. -/
def parse_date (v : Option String) : Option PDate :=
  match v with
  | none => none
  | some s => if s = "" || s = "null" then none else strptimeYmd s

/-- `PolicyVerifyView._to_decimal` on the model's JSON-number inputs: `None`
maps to `None`, numbers convert exactly.  (The source additionally accepts
numeric strings and maps any unconvertible input to `None`; the model's
verified-data numbers are already rationals.) -/
def to_decimal (v : Option ℚ) : Option ℚ := v

structure PolicyRow where
  id : Nat
  userId : Nat
  name : String
  document : Nat
  docSize : Nat
  insurance_type : Option String
  policy_number : Option String
  insurer_name : Option String
  ai_extraction_status : EStatus
  ai_extracted_at : Option Nat
  ai_extraction_error : Option String
  is_verified_by_user : Bool
  verified_at : Option Nat
  is_active : Bool
  is_processed : Bool
  processing_error : Option String
  last_processed : Option Nat
  /-- Ghost history variable (not a source column): set exactly when a
  verification commit succeeds for this policy. -/
  everVerifiedCommit : Bool

structure CoverageRow where
  policyId : Nat
  sum_assured : Option ℚ
  premium_amount : Option ℚ
  premium_frequency : Option String
  maturity_amount : Option ℚ
  issue_date : Option PDate
  start_date : Option PDate
  end_date : Option PDate
  maturity_date : Option PDate

structure NomineeRow where
  policyId : Nat
  name : String
  relationship : Option String
  allocation_percentage : ℚ
  date_of_birth : Option PDate
  contact_number : Option String

structure BenefitRow where
  policyId : Nat
  benefit_type : String
  name : String
  description : Option String
  coverage_amount : Option ℚ
  is_active : Bool

structure ExclusionRow where
  policyId : Nat
  title : String
  description : String

structure HealthRow where
  policyId : Nat
  policy_type : Option String
  room_rent_limit : Option ℚ
  co_payment_percentage : Option ℚ
  network_hospitals_count : Option Int
  cashless_facility : Bool

structure MemberRow where
  policyId : Nat
  name : String
  relationship : String
  date_of_birth : Option PDate
  age : Option Int
  pre_existing_conditions : Option String

/-- Modelled from the spec: the `MotorInsuranceDetails` model class is
referenced by `policies/views.py` and `policies/serializers.py` but missing
from `src/policies/models.py`; its fields follow spec §3 (vehicle
type/make/model/registration/engine/chassis, year, IDV, own-damage and
third-party cover amounts, NCB percentage, add-on flags). -/
structure MotorRow where
  policyId : Nat
  vehicle_type : Option String
  policy_type : Option String
  vehicle_make : Option String
  vehicle_model : Option String
  registration_number : Option String
  engine_number : Option String
  chassis_number : Option String
  year_of_manufacture : Option Int
  idv : Option ℚ
  own_damage_cover : Option ℚ
  third_party_cover : Option ℚ
  ncb_percentage : Option ℚ
  previous_policy_number : Option String
  has_zero_depreciation : Bool
  has_engine_protection : Bool
  has_roadside_assistance : Bool

structure ExtractedDocRow where
  policyId : Nat
  raw_text : String
  structured_data : JValue
  extraction_model : String

structure DB where
  policies : List PolicyRow
  coverages : List CoverageRow
  nominees : List NomineeRow
  benefits : List BenefitRow
  exclusions : List ExclusionRow
  healthDetails : List HealthRow
  coveredMembers : List MemberRow
  motorDetails : List MotorRow
  extractedDocs : List ExtractedDocRow
  /-- Pending background extraction jobs (threads spawned at upload),
  by policy id. -/
  jobs : List Nat
  nextId : Nat

def DB.findPolicy (db : DB) (pid : Nat) : Option PolicyRow :=
  db.policies.find? (fun p => p.id == pid)

def DB.updatePolicy (db : DB) (pid : Nat) (f : PolicyRow → PolicyRow) : DB :=
  { db with policies := db.policies.map (fun p => if p.id == pid then f p else p) }

/-! ## Verified request data (`request.data` for the verify endpoint)

A JSON field is absent, null, or a value; Python `d.get(k)` collapses absent
and null to `None`, while `d.get(k, default)` maps absent to the default but
null to `None`. -/

inductive OptField (α : Type) where
  | absent : OptField α
  | null : OptField α
  | val : α → OptField α

namespace OptField

/-- Python `d.get(k)`. -/
def get? : OptField α → Option α
  | val a => some a
  | _ => none

/-- Python `d.get(k, default)`. -/
def getD (dflt : α) : OptField α → Option α
  | absent => some dflt
  | null => none
  | val a => some a

/-- Python `k in d`. -/
def isPresent : OptField α → Bool
  | absent => false
  | _ => true

end OptField

structure CoverageData where
  sum_assured : OptField ℚ
  premium_amount : OptField ℚ
  premium_frequency : OptField String
  maturity_amount : OptField ℚ
  issue_date : OptField String
  start_date : OptField String
  end_date : OptField String
  maturity_date : OptField String

structure NomineeData where
  name : OptField String
  relationship : OptField String
  allocation_percentage : OptField ℚ

structure BenefitData where
  benefit_type : OptField String
  name : OptField String
  description : OptField String
  coverage_amount : OptField ℚ

structure ExclusionData where
  title : OptField String
  description : OptField String

structure MemberData where
  name : OptField String
  relationship : OptField String
  age : OptField Int
  date_of_birth : OptField String

structure HealthData where
  policy_type : OptField String
  room_rent_limit : OptField ℚ
  co_payment_percentage : OptField ℚ
  cashless_facility : OptField Bool
  covered_members : OptField (List MemberData)

structure MotorData where
  vehicle_type : OptField String
  policy_type : OptField String
  vehicle_make : OptField String
  vehicle_model : OptField String
  registration_number : OptField String
  engine_number : OptField String
  chassis_number : OptField String
  year_of_manufacture : OptField Int
  idv : OptField ℚ
  own_damage_cover : OptField ℚ
  third_party_cover : OptField ℚ
  ncb_percentage : OptField ℚ
  previous_policy_number : OptField String
  has_zero_depreciation : OptField Bool
  has_engine_protection : OptField Bool
  has_roadside_assistance : OptField Bool

structure VerifiedData where
  insurance_type : OptField String
  policy_number : OptField String
  insurer_name : OptField String
  coverage : OptField CoverageData
  nominees : OptField (List NomineeData)
  benefits : OptField (List BenefitData)
  exclusions : OptField (List ExclusionData)
  health_details : OptField HealthData
  motor_details : OptField MotorData

def emptyCoverageData : CoverageData :=
  { sum_assured := OptField.absent, premium_amount := OptField.absent,
    premium_frequency := OptField.absent, maturity_amount := OptField.absent,
    issue_date := OptField.absent, start_date := OptField.absent,
    end_date := OptField.absent, maturity_date := OptField.absent }

/-! ## Column constraints (Postgres, per `models.py` field declarations) -/

def varcharMsg : String := "DataError: value too long for type character varying"
def notNullMsg : String := "IntegrityError: null value in column violates not-null constraint"
def attrErrMsg : String := "AttributeError: NoneType object has no attribute get"

/-- A nullable `CharField(max_length=n)` column write. -/
def checkVarcharOpt (n : Nat) (v : Option String) : Except String Unit :=
  match v with
  | some s => if s.length ≤ n then Except.ok () else Except.error varcharMsg
  | none => Except.ok ()

/-- A NOT NULL `CharField(max_length=n)` column write. -/
def reqVarchar (n : Nat) (v : Option String) : Except String String :=
  match v with
  | some s => if s.length ≤ n then Except.ok s else Except.error varcharMsg
  | none => Except.error notNullMsg

/-- A NOT NULL `TextField` column write. -/
def reqText (v : Option String) : Except String String :=
  match v with
  | some s => Except.ok s
  | none => Except.error notNullMsg

/-- A NOT NULL `BooleanField` column write. -/
def reqBool (v : Option Bool) : Except String Bool :=
  match v with
  | some b => Except.ok b
  | none => Except.error notNullMsg

/-- A NOT NULL `DecimalField` column write. -/
def reqDec (v : Option ℚ) : Except String ℚ :=
  match v with
  | some q => Except.ok q
  | none => Except.error notNullMsg

/-- Python truthiness of a `d.get(...)` string result. -/
def truthyStr : Option String → Bool
  | some s => !(s == "")
  | none => false

/-! ## `PolicyVerifyView._save_verified_data` -/

def DB.deleteNominees (db : DB) (pid : Nat) : DB :=
  { db with nominees := db.nominees.filter (fun r => !(r.policyId == pid)) }

def DB.deleteBenefits (db : DB) (pid : Nat) : DB :=
  { db with benefits := db.benefits.filter (fun r => !(r.policyId == pid)) }

def DB.deleteExclusions (db : DB) (pid : Nat) : DB :=
  { db with exclusions := db.exclusions.filter (fun r => !(r.policyId == pid)) }

def DB.deleteMembers (db : DB) (pid : Nat) : DB :=
  { db with coveredMembers := db.coveredMembers.filter (fun r => !(r.policyId == pid)) }

/-- `PolicyCoverage.objects.update_or_create(policy=..., defaults=...)`:
every column appears in `defaults`, so update replaces the whole row. -/
def upsertCoverage (db : DB) (c : CoverageRow) : DB :=
  if db.coverages.any (fun r => r.policyId == c.policyId) then
    { db with coverages := db.coverages.map (fun r => if r.policyId == c.policyId then c else r) }
  else
    { db with coverages := db.coverages ++ [c] }

/-- `HealthInsuranceDetails.objects.update_or_create`: the
`network_hospitals_count` column is not in `defaults`, so update keeps it. -/
def upsertHealth (db : DB) (pid : Nat) (pt : Option String) (rrl cpp : Option ℚ)
    (cf : Bool) : DB :=
  if db.healthDetails.any (fun r => r.policyId == pid) then
    { db with healthDetails := db.healthDetails.map (fun r =>
        if r.policyId == pid then
          { r with policy_type := pt, room_rent_limit := rrl,
                   co_payment_percentage := cpp, cashless_facility := cf }
        else r) }
  else
    { db with healthDetails := db.healthDetails ++
        [{ policyId := pid, policy_type := pt, room_rent_limit := rrl,
           co_payment_percentage := cpp, network_hospitals_count := none,
           cashless_facility := cf }] }

def upsertMotor (db : DB) (m : MotorRow) : DB :=
  if db.motorDetails.any (fun r => r.policyId == m.policyId) then
    { db with motorDetails := db.motorDetails.map (fun r => if r.policyId == m.policyId then m else r) }
  else
    { db with motorDetails := db.motorDetails ++ [m] }

def upsertExtractedDoc (db : DB) (e : ExtractedDocRow) : DB :=
  if db.extractedDocs.any (fun r => r.policyId == e.policyId) then
    { db with extractedDocs := db.extractedDocs.map (fun r => if r.policyId == e.policyId then e else r) }
  else
    { db with extractedDocs := db.extractedDocs ++ [e] }

/-- Rows created by the nominee loop: one per entry with a truthy `name`
(entries without a name are skipped); within the atomic transaction a failed
`create` aborts everything, so the loop is modelled as collecting the created
rows or the first error. -/
def nomineeRowsOf (pid : Nat) : List NomineeData → Except String (List NomineeRow)
  | [] => Except.ok []
  | n :: rest =>
      if truthyStr (OptField.get? n.name) then do
        let nm ← reqVarchar 255 (OptField.get? n.name)
        let _ ← checkVarcharOpt 100 (OptField.get? n.relationship)
        let alloc ← reqDec (to_decimal (OptField.getD 100 n.allocation_percentage))
        let tail ← nomineeRowsOf pid rest
        Except.ok ({ policyId := pid, name := nm,
                     relationship := OptField.get? n.relationship,
                     allocation_percentage := alloc, date_of_birth := none,
                     contact_number := none } :: tail)
      else nomineeRowsOf pid rest

/-- Rows created by the benefit loop (skip entries without a truthy name;
`benefit_type` defaults to `BASE` when the key is absent). -/
def benefitRowsOf (pid : Nat) : List BenefitData → Except String (List BenefitRow)
  | [] => Except.ok []
  | b :: rest =>
      if truthyStr (OptField.get? b.name) then do
        let bt ← reqVarchar 20 (OptField.getD "BASE" b.benefit_type)
        let nm ← reqVarchar 255 (OptField.get? b.name)
        let tail ← benefitRowsOf pid rest
        Except.ok ({ policyId := pid, benefit_type := bt, name := nm,
                     description := OptField.get? b.description,
                     coverage_amount := to_decimal (OptField.get? b.coverage_amount),
                     is_active := true } :: tail)
      else benefitRowsOf pid rest

/-- Rows created by the exclusion loop (skip entries without a truthy title;
`description` defaults to the empty string when the key is absent). -/
def exclusionRowsOf (pid : Nat) : List ExclusionData → Except String (List ExclusionRow)
  | [] => Except.ok []
  | e :: rest =>
      if truthyStr (OptField.get? e.title) then do
        let ti ← reqVarchar 255 (OptField.get? e.title)
        let de ← reqText (OptField.getD "" e.description)
        let tail ← exclusionRowsOf pid rest
        Except.ok ({ policyId := pid, title := ti, description := de } :: tail)
      else exclusionRowsOf pid rest

/-- Rows created by the covered-member loop (skip entries without a truthy
name; `relationship` is a NOT NULL column). -/
def memberRowsOf (pid : Nat) : List MemberData → Except String (List MemberRow)
  | [] => Except.ok []
  | m :: rest =>
      if truthyStr (OptField.get? m.name) then do
        let nm ← reqVarchar 255 (OptField.get? m.name)
        let rel ← reqVarchar 50 (OptField.get? m.relationship)
        let tail ← memberRowsOf pid rest
        Except.ok ({ policyId := pid, name := nm, relationship := rel,
                     date_of_birth := parse_date (OptField.get? m.date_of_birth),
                     age := OptField.get? m.age,
                     pre_existing_conditions := none } :: tail)
      else memberRowsOf pid rest

/-- The policy-row update of stage 1: overwrite `insurance_type`,
`policy_number`, `insurer_name` from the request data. -/
def policyFieldsUpdate (d : VerifiedData) (p : PolicyRow) : PolicyRow :=
  { p with
    insurance_type := OptField.get? d.insurance_type
    policy_number := OptField.get? d.policy_number
    insurer_name := OptField.get? d.insurer_name }

/-- Stage 1: overwrite the policy's `insurance_type`, `policy_number`,
`insurer_name` from the request data and save. -/
def stagePolicyFields (pid : Nat) (d : VerifiedData) (db : DB) : Except String DB := do
  let _ ← checkVarcharOpt 20 (OptField.get? d.insurance_type)
  let _ ← checkVarcharOpt 100 (OptField.get? d.policy_number)
  let _ ← checkVarcharOpt 255 (OptField.get? d.insurer_name)
  Except.ok (db.updatePolicy pid (policyFieldsUpdate d))

/-- `data.get('coverage', {})`: absent yields an empty dict; an explicit
null makes the subsequent `.get` calls raise `AttributeError`. -/
def coverageDict : OptField CoverageData → Except String CoverageData
  | OptField.absent => Except.ok emptyCoverageData
  | OptField.null => Except.error attrErrMsg
  | OptField.val c => Except.ok c

/-- Stage 2: upsert the one-to-one coverage row. -/
def stageCoverage (pid : Nat) (d : VerifiedData) (db : DB) : Except String DB := do
  let cov ← coverageDict d.coverage
  let _ ← checkVarcharOpt 20 (OptField.get? cov.premium_frequency)
  Except.ok (upsertCoverage db
    { policyId := pid,
      sum_assured := to_decimal (OptField.get? cov.sum_assured),
      premium_amount := to_decimal (OptField.get? cov.premium_amount),
      premium_frequency := OptField.get? cov.premium_frequency,
      maturity_amount := to_decimal (OptField.get? cov.maturity_amount),
      issue_date := parse_date (OptField.get? cov.issue_date),
      start_date := parse_date (OptField.get? cov.start_date),
      end_date := parse_date (OptField.get? cov.end_date),
      maturity_date := parse_date (OptField.get? cov.maturity_date) })

/-- Stage 3: `if 'nominees' in data and data['nominees']:` — only a present,
non-empty list triggers delete-then-recreate. -/
def stageNominees (pid : Nat) (d : VerifiedData) (db : DB) : Except String DB :=
  match d.nominees with
  | OptField.val (n :: ns) =>
      (nomineeRowsOf pid (n :: ns)).map (fun rows =>
        let db2 := db.deleteNominees pid
        { db2 with nominees := db2.nominees ++ rows })
  | _ => Except.ok db

/-- Stage 4: benefits, same present-and-non-empty guard. -/
def stageBenefits (pid : Nat) (d : VerifiedData) (db : DB) : Except String DB :=
  match d.benefits with
  | OptField.val (b :: bs) =>
      (benefitRowsOf pid (b :: bs)).map (fun rows =>
        let db2 := db.deleteBenefits pid
        { db2 with benefits := db2.benefits ++ rows })
  | _ => Except.ok db

/-- Stage 5: exclusions, same present-and-non-empty guard. -/
def stageExclusions (pid : Nat) (d : VerifiedData) (db : DB) : Except String DB :=
  match d.exclusions with
  | OptField.val (e :: es) =>
      (exclusionRowsOf pid (e :: es)).map (fun rows =>
        let db2 := db.deleteExclusions pid
        { db2 with exclusions := db2.exclusions ++ rows })
  | _ => Except.ok db

def emptyHealthData : HealthData :=
  { policy_type := OptField.absent, room_rent_limit := OptField.absent,
    co_payment_percentage := OptField.absent, cashless_facility := OptField.absent,
    covered_members := OptField.absent }

def healthDict : OptField HealthData → Except String HealthData
  | OptField.absent => Except.ok emptyHealthData
  | OptField.null => Except.error attrErrMsg
  | OptField.val h => Except.ok h

/-- Stage 6: health details, guarded by
`policy.insurance_type == 'HEALTH' and 'health_details' in data` (the
policy object's `insurance_type` was set from the request in stage 1). -/
def stageHealth (pid : Nat) (d : VerifiedData) (db : DB) : Except String DB :=
  if OptField.get? d.insurance_type == some "HEALTH" && OptField.isPresent d.health_details then do
    let h ← healthDict d.health_details
    let _ ← checkVarcharOpt 50 (OptField.get? h.policy_type)
    let cf ← reqBool (OptField.getD true h.cashless_facility)
    let db2 := upsertHealth db pid (OptField.get? h.policy_type)
      (to_decimal (OptField.get? h.room_rent_limit))
      (to_decimal (OptField.get? h.co_payment_percentage)) cf
    match OptField.get? h.covered_members with
    | some (m :: ms) =>
        (memberRowsOf pid (m :: ms)).map (fun rows =>
          let db3 := db2.deleteMembers pid
          { db3 with coveredMembers := db3.coveredMembers ++ rows })
    | _ => Except.ok db2
  else Except.ok db

def emptyMotorData : MotorData :=
  { vehicle_type := OptField.absent, policy_type := OptField.absent,
    vehicle_make := OptField.absent, vehicle_model := OptField.absent,
    registration_number := OptField.absent, engine_number := OptField.absent,
    chassis_number := OptField.absent, year_of_manufacture := OptField.absent,
    idv := OptField.absent, own_damage_cover := OptField.absent,
    third_party_cover := OptField.absent, ncb_percentage := OptField.absent,
    previous_policy_number := OptField.absent,
    has_zero_depreciation := OptField.absent,
    has_engine_protection := OptField.absent,
    has_roadside_assistance := OptField.absent }

def motorDict : OptField MotorData → Except String MotorData
  | OptField.absent => Except.ok emptyMotorData
  | OptField.null => Except.error attrErrMsg
  | OptField.val m => Except.ok m

/-- Stage 7: motor details, guarded by
`policy.insurance_type == 'MOTOR' and 'motor_details' in data`.  (The
`MotorInsuranceDetails` columns are modelled from the spec, see `MotorRow`;
no length constraints are assumed on them.) -/
def stageMotor (pid : Nat) (d : VerifiedData) (db : DB) : Except String DB :=
  if OptField.get? d.insurance_type == some "MOTOR" && OptField.isPresent d.motor_details then do
    let m ← motorDict d.motor_details
    let zd ← reqBool (OptField.getD false m.has_zero_depreciation)
    let ep ← reqBool (OptField.getD false m.has_engine_protection)
    let ra ← reqBool (OptField.getD false m.has_roadside_assistance)
    Except.ok (upsertMotor db
      { policyId := pid,
        vehicle_type := OptField.get? m.vehicle_type,
        policy_type := OptField.get? m.policy_type,
        vehicle_make := OptField.get? m.vehicle_make,
        vehicle_model := OptField.get? m.vehicle_model,
        registration_number := OptField.get? m.registration_number,
        engine_number := OptField.get? m.engine_number,
        chassis_number := OptField.get? m.chassis_number,
        year_of_manufacture := OptField.get? m.year_of_manufacture,
        idv := to_decimal (OptField.get? m.idv),
        own_damage_cover := to_decimal (OptField.get? m.own_damage_cover),
        third_party_cover := to_decimal (OptField.get? m.third_party_cover),
        ncb_percentage := to_decimal (OptField.get? m.ncb_percentage),
        previous_policy_number := OptField.get? m.previous_policy_number,
        has_zero_depreciation := zd,
        has_engine_protection := ep,
        has_roadside_assistance := ra })
  else Except.ok db

/-- `PolicyVerifyView._save_verified_data`, as the sequence of its write
stages; any raised error aborts with no value (the caller's
`transaction.atomic` then discards all intermediate writes). -/
def saveVerifiedData (db : DB) (pid : Nat) (d : VerifiedData) : Except String DB := do
  let db1 ← stagePolicyFields pid d db
  let db2 ← stageCoverage pid d db1
  let db3 ← stageNominees pid d db2
  let db4 ← stageBenefits pid d db3
  let db5 ← stageExclusions pid d db4
  let db6 ← stageHealth pid d db5
  stageMotor pid d db6

/-- The per-row verified-flag update (`is_verified_by_user`, `verified_at`,
legacy bookkeeping fields); also sets the ghost history bit
`everVerifiedCommit`. -/
def markVerified (t : Nat) (p : PolicyRow) : PolicyRow :=
  { p with is_verified_by_user := true, verified_at := some t,
           is_processed := true, last_processed := some t,
           processing_error := none, everVerifiedCommit := true }

/-- The verified-flag update performed after `_save_verified_data` inside the
same transaction. -/
def verifySuccessMark (db : DB) (pid : Nat) (t : Nat) : DB :=
  db.updatePolicy pid (markVerified t)

/-- The policy-row update of stage 1 of `_save_verified_data` when only an
`insurance_type` field is supplied. -/
def typeOnlyUpdate (it : OptField String) (q : PolicyRow) : PolicyRow :=
  { q with insurance_type := OptField.get? it, policy_number := none,
           insurer_name := none }

/-- The all-null coverage row written when the request has no `coverage`
section. -/
def emptyCovRow (pid : Nat) : CoverageRow :=
  { policyId := pid, sum_assured := none, premium_amount := none,
    premium_frequency := none, maturity_amount := none, issue_date := none,
    start_date := none, end_date := none, maturity_date := none }

/-- `PolicyVerifyView.post`: owner-scoped lookup (404), extraction-complete
precondition (400), then the atomic commit — on any error the transaction
rolls back and the original database is kept (500). Returns the resulting
database and HTTP status. -/
def policyVerifyPost (db : DB) (uid pid : Nat) (d : VerifiedData) (t : Nat) :
    DB × Nat :=
  match db.policies.find? (fun p => p.id == pid && p.userId == uid) with
  | none => (db, 404)
  | some p =>
      if p.ai_extraction_status ≠ EStatus.COMPLETED then (db, 400)
      else
        match saveVerifiedData db pid d with
        | Except.ok db2 => (verifySuccessMark db2 pid t, 200)
        | Except.error _ => (db, 500)

/-! ## Background extraction job and upload handler -/

/-- The status flip to PROCESSING at the start of the background job. -/
def procUpdate (q : PolicyRow) : PolicyRow :=
  { q with ai_extraction_status := EStatus.PROCESSING }

/-- The status flip to COMPLETED on extraction success. -/
def doneUpdate (t : Nat) (q : PolicyRow) : PolicyRow :=
  { q with
    ai_extraction_status := EStatus.COMPLETED
    ai_extracted_at := some t
    ai_extraction_error := none }

/-- The status flip to FAILED on extraction failure, with the error message
truncated to 1000 characters. -/
def failUpdate (e : String) (q : PolicyRow) : PolicyRow :=
  { q with
    ai_extraction_status := EStatus.FAILED
    ai_extraction_error := some (String.mk (e.data.take 1000)) }

/-- `process_policy_extraction_background`: set PROCESSING, run the
extraction pipeline; on success upsert the `ExtractedDocument` and flip to
COMPLETED atomically; on any exception flip to FAILED with the error message
truncated to 1000 characters.  A missing policy leaves the database
unchanged. -/
def processPolicyExtractionBackground (env : GeminiEnv) (db : DB) (pid : Nat)
    (t : Nat) : DB :=
  match db.findPolicy pid with
  | none => db
  | some p =>
      let db1 := db.updatePolicy pid procUpdate
      match (extractPolicyPreview env p.docSize).1 with
      | Except.ok data =>
          let db2 := upsertExtractedDoc db1
            { policyId := pid, raw_text := "", structured_data := data,
              extraction_model := "gemini-2.0-flash-exp" }
          db2.updatePolicy pid (doneUpdate t)
      | Except.error e =>
          db1.updatePolicy pid (failUpdate e)

/-- `PolicyUploadView.post`: persist the policy immediately in PENDING with
the verified flag clear, and schedule the background extraction job. -/
def policyUploadPost (db : DB) (uid : Nat) (nm : String) (doc : Nat)
    (size : Nat) : DB × Nat :=
  let p : PolicyRow :=
    { id := db.nextId, userId := uid, name := nm, document := doc,
      docSize := size, insurance_type := none, policy_number := none,
      insurer_name := none, ai_extraction_status := EStatus.PENDING,
      ai_extracted_at := none, ai_extraction_error := none,
      is_verified_by_user := false, verified_at := none, is_active := true,
      is_processed := false, processing_error := none, last_processed := none,
      everVerifiedCommit := false }
  ({ db with policies := db.policies ++ [p], jobs := db.jobs ++ [db.nextId],
             nextId := db.nextId + 1 }, 201)

/-! ## System state machine -/

inductive Step where
  | upload (uid : Nat) (nm : String) (doc : Nat) (size : Nat) : Step
  | bgExtract (pid : Nat) (env : GeminiEnv) (t : Nat) : Step
  | verify (uid pid : Nat) (d : VerifiedData) (t : Nat) : Step

/-- One system transition: an upload request, a scheduled background
extraction job running (it runs once per upload; the job queue consumes it),
or a verification request. -/
def stepDB (db : DB) : Step → DB
  | Step.upload uid nm doc size => (policyUploadPost db uid nm doc size).1
  | Step.bgExtract pid env t =>
      if db.jobs.contains pid then
        processPolicyExtractionBackground env { db with jobs := db.jobs.erase pid } pid t
      else db
  | Step.verify uid pid d t => (policyVerifyPost db uid pid d t).1

def emptyDB : DB :=
  { policies := [], coverages := [], nominees := [], benefits := [],
    exclusions := [], healthDetails := [], coveredMembers := [],
    motorDetails := [], extractedDocs := [], jobs := [], nextId := 0 }

inductive Reachable : DB → Prop where
  | init : Reachable emptyDB
  | step : ∀ {db : DB} (s : Step), Reachable db → Reachable (stepDB db s)

/-- The system invariant: policy and job ids are below the id counter,
queued jobs point at unverified PENDING policies, a verified policy has
COMPLETED extraction and a recorded successful commit (ghost bit), and
policy ids and job entries are duplicate-free. -/
def Inv (db : DB) : Prop :=
  (∀ p ∈ db.policies, p.id < db.nextId) ∧
  (∀ pid ∈ db.jobs, pid < db.nextId) ∧
  (∀ pid ∈ db.jobs, ∀ p ∈ db.policies, p.id = pid →
      p.ai_extraction_status = EStatus.PENDING ∧ p.is_verified_by_user = false) ∧
  (∀ p ∈ db.policies, p.is_verified_by_user = true →
      p.ai_extraction_status = EStatus.COMPLETED ∧ p.everVerifiedCommit = true) ∧
  (db.policies.map PolicyRow.id).Nodup ∧
  db.jobs.Nodup

/-! ## `DashboardStatsView._convert_to_monthly_premium` -/

/-- Premium-to-monthly conversion: `if not amount` catches both `None` and a
zero amount; unrecognized (or null) frequency yields 0. `Decimal` division is
modelled as exact rational division. -/
def convert_to_monthly_premium (amount : Option ℚ) (frequency : Option String) : ℚ :=
  match amount with
  | none => 0
  | some a =>
      if a = 0 then 0
      else if frequency = some "MONTHLY" then a
      else if frequency = some "QUARTERLY" then a / 3
      else if frequency = some "HALF_YEARLY" then a / 6
      else if frequency = some "YEARLY" then a / 12
      else 0

/-! ## Concrete fixtures used by witnesses and counterexamples -/

/-- A verified-data payload carrying only an `insurance_type` field. -/
def onlyTypeData (it : OptField String) : VerifiedData :=
  { insurance_type := it, policy_number := OptField.absent,
    insurer_name := OptField.absent, coverage := OptField.absent,
    nominees := OptField.absent, benefits := OptField.absent,
    exclusions := OptField.absent, health_details := OptField.absent,
    motor_details := OptField.absent }

/-- A trivial external-model environment for witnesses. -/
def envOk : GeminiEnv :=
  { uploads := fun _ => UploadOutcome.success, validateText := "VALID",
    identifyText := "LIFE", extractText := "{}" }

/-- A present, non-empty list field (the truthiness test
`'k' in data and data['k']`). -/
def isNonemptyList {α : Type} : OptField (List α) → Bool
  | OptField.val (_ :: _) => true
  | _ => false

/-- An upload boundary that answers 503 on every attempt. -/
def transient503 : Nat → UploadOutcome :=
  fun _ => UploadOutcome.err "503 Service Unavailable"

/-- An environment whose classifier answers `OTHER`. -/
def envOther : GeminiEnv :=
  { uploads := fun _ => UploadOutcome.success, validateText := "VALID",
    identifyText := "OTHER", extractText := "{}" }

/-- A policy of user 7 with extraction completed, awaiting verification. -/
def completedPolicy : PolicyRow :=
  { id := 1, userId := 7, name := "term plan", document := 11, docSize := 4096,
    insurance_type := none, policy_number := none, insurer_name := none,
    ai_extraction_status := EStatus.COMPLETED, ai_extracted_at := some 2,
    ai_extraction_error := none, is_verified_by_user := false,
    verified_at := none, is_active := true, is_processed := false,
    processing_error := none, last_processed := none,
    everVerifiedCommit := false }

/-- A database holding just `completedPolicy`. -/
def dbOne : DB := { emptyDB with policies := [completedPolicy], nextId := 2 }

/-- A benefit entry with only a name. -/
def namedBenefit (nm : String) : BenefitData :=
  { benefit_type := OptField.absent, name := OptField.val nm,
    description := OptField.absent, coverage_amount := OptField.absent }

/-- Five benefit entries whose third has a 256-character name, overflowing
the `varchar(255)` column of `PolicyBenefit.name`. -/
def fiveBenefitsBad3 : VerifiedData :=
  { onlyTypeData OptField.absent with
    benefits := OptField.val
      [namedBenefit "b1", namedBenefit "b2",
       namedBenefit (String.mk (List.replicate 256 'x')),
       namedBenefit "b4", namedBenefit "b5"] }


/-- An existing nominee row for policy 1, used to exhibit the
empty-list behaviour of the verify commit. -/
def existingNominee : NomineeRow :=
  { policyId := 1, name := "Ravi", relationship := some "Father",
    allocation_percentage := 100, date_of_birth := none, contact_number := none }

/-- `dbOne` with one stored nominee for the policy. -/
def dbWithNominee : DB :=
  { emptyDB with
    policies := [completedPolicy]
    nominees := [existingNominee]
    nextId := 2 }

/-- A verified-data payload whose `nominees` field is the empty list. -/
def emptyNomineesData : VerifiedData :=
  { onlyTypeData OptField.absent with nominees := OptField.val [] }

/-- The database produced by committing `emptyNomineesData` on
`dbWithNominee`. -/
def dbAfterEmptyNominees : DB :=
  ((saveVerifiedData dbWithNominee 1 emptyNomineesData).toOption).getD emptyDB

end NomiSafe

namespace NomiSafe

/-! ### Helper lemmas about the commit stages -/

theorem upsertCoverage_frame (db : DB) (c : CoverageRow) :
    (upsertCoverage db c).policies = db.policies ∧
    (upsertCoverage db c).nominees = db.nominees ∧
    (upsertCoverage db c).benefits = db.benefits ∧
    (upsertCoverage db c).exclusions = db.exclusions ∧
    (upsertCoverage db c).healthDetails = db.healthDetails ∧
    (upsertCoverage db c).coveredMembers = db.coveredMembers ∧
    (upsertCoverage db c).motorDetails = db.motorDetails ∧
    (upsertCoverage db c).extractedDocs = db.extractedDocs ∧
    (upsertCoverage db c).jobs = db.jobs ∧
    (upsertCoverage db c).nextId = db.nextId := by
  unfold upsertCoverage
  split <;> exact ⟨rfl, rfl, rfl, rfl, rfl, rfl, rfl, rfl, rfl, rfl⟩

theorem upsertHealth_frame (db : DB) (pid : Nat) (pt : Option String)
    (rrl cpp : Option ℚ) (cf : Bool) :
    (upsertHealth db pid pt rrl cpp cf).policies = db.policies ∧
    (upsertHealth db pid pt rrl cpp cf).coverages = db.coverages ∧
    (upsertHealth db pid pt rrl cpp cf).nominees = db.nominees ∧
    (upsertHealth db pid pt rrl cpp cf).benefits = db.benefits ∧
    (upsertHealth db pid pt rrl cpp cf).exclusions = db.exclusions ∧
    (upsertHealth db pid pt rrl cpp cf).coveredMembers = db.coveredMembers ∧
    (upsertHealth db pid pt rrl cpp cf).motorDetails = db.motorDetails ∧
    (upsertHealth db pid pt rrl cpp cf).extractedDocs = db.extractedDocs ∧
    (upsertHealth db pid pt rrl cpp cf).jobs = db.jobs ∧
    (upsertHealth db pid pt rrl cpp cf).nextId = db.nextId := by
  unfold upsertHealth
  split <;> exact ⟨rfl, rfl, rfl, rfl, rfl, rfl, rfl, rfl, rfl, rfl⟩

theorem upsertMotor_frame (db : DB) (m : MotorRow) :
    (upsertMotor db m).policies = db.policies ∧
    (upsertMotor db m).coverages = db.coverages ∧
    (upsertMotor db m).nominees = db.nominees ∧
    (upsertMotor db m).benefits = db.benefits ∧
    (upsertMotor db m).exclusions = db.exclusions ∧
    (upsertMotor db m).healthDetails = db.healthDetails ∧
    (upsertMotor db m).coveredMembers = db.coveredMembers ∧
    (upsertMotor db m).extractedDocs = db.extractedDocs ∧
    (upsertMotor db m).jobs = db.jobs ∧
    (upsertMotor db m).nextId = db.nextId := by
  unfold upsertMotor
  split <;> exact ⟨rfl, rfl, rfl, rfl, rfl, rfl, rfl, rfl, rfl, rfl⟩

theorem upsertExtractedDoc_frame (db : DB) (e : ExtractedDocRow) :
    (upsertExtractedDoc db e).policies = db.policies ∧
    (upsertExtractedDoc db e).jobs = db.jobs ∧
    (upsertExtractedDoc db e).nextId = db.nextId := by
  unfold upsertExtractedDoc
  split <;> exact ⟨rfl, rfl, rfl⟩

theorem stagePolicyFields_ok {pid : Nat} {d : VerifiedData} {db db2 : DB}
    (h : stagePolicyFields pid d db = Except.ok db2) :
    db2 = db.updatePolicy pid (policyFieldsUpdate d) := by
  unfold stagePolicyFields at h
  cases hc1 : checkVarcharOpt 20 (OptField.get? d.insurance_type) <;> rw [hc1] at h <;>
    simp [Bind.bind, Except.bind] at h
  cases hc2 : checkVarcharOpt 100 (OptField.get? d.policy_number) <;> rw [hc2] at h <;>
    simp [Bind.bind, Except.bind] at h
  cases hc3 : checkVarcharOpt 255 (OptField.get? d.insurer_name) <;> rw [hc3] at h <;>
    simp [Bind.bind, Except.bind] at h
  exact h.symm

theorem stageCoverage_ok {pid : Nat} {d : VerifiedData} {db db2 : DB}
    (h : stageCoverage pid d db = Except.ok db2) :
    ∃ c : CoverageRow, db2 = upsertCoverage db c := by
  unfold stageCoverage at h
  cases hcv : coverageDict d.coverage <;> rw [hcv] at h <;>
    simp [Bind.bind, Except.bind] at h
  case ok cov =>
  cases hc : checkVarcharOpt 20 (OptField.get? cov.premium_frequency) <;> rw [hc] at h <;>
    simp [Bind.bind, Except.bind] at h
  exact ⟨_, h.symm⟩

theorem stageNominees_skip {pid : Nat} {d : VerifiedData} {db db2 : DB}
    (hn : isNonemptyList d.nominees = false)
    (h : stageNominees pid d db = Except.ok db2) : db2 = db := by
  cases hd : d.nominees with
  | absent => simp [stageNominees, hd] at h; exact h.symm
  | null => simp [stageNominees, hd] at h; exact h.symm
  | val l =>
    cases l with
    | nil => simp [stageNominees, hd] at h; exact h.symm
    | cons n ns => rw [hd] at hn; simp [isNonemptyList] at hn

theorem stageNominees_content {pid : Nat} {d : VerifiedData} {db db2 : DB}
    {n : NomineeData} {ns : List NomineeData}
    (hd : d.nominees = OptField.val (n :: ns))
    (h : stageNominees pid d db = Except.ok db2) :
    ∃ rows, nomineeRowsOf pid (n :: ns) = Except.ok rows ∧
      db2 = { db with nominees :=
        db.nominees.filter (fun r => !(r.policyId == pid)) ++ rows } := by
  cases hrows : nomineeRowsOf pid (n :: ns) <;>
    simp [stageNominees, hd, hrows, Except.map, DB.deleteNominees] at h
  exact ⟨_, rfl, h.symm⟩

theorem stageBenefits_skip {pid : Nat} {d : VerifiedData} {db db2 : DB}
    (hn : isNonemptyList d.benefits = false)
    (h : stageBenefits pid d db = Except.ok db2) : db2 = db := by
  cases hd : d.benefits with
  | absent => simp [stageBenefits, hd] at h; exact h.symm
  | null => simp [stageBenefits, hd] at h; exact h.symm
  | val l =>
    cases l with
    | nil => simp [stageBenefits, hd] at h; exact h.symm
    | cons b bs => rw [hd] at hn; simp [isNonemptyList] at hn

theorem stageBenefits_content {pid : Nat} {d : VerifiedData} {db db2 : DB}
    {b : BenefitData} {bs : List BenefitData}
    (hd : d.benefits = OptField.val (b :: bs))
    (h : stageBenefits pid d db = Except.ok db2) :
    ∃ rows, benefitRowsOf pid (b :: bs) = Except.ok rows ∧
      db2 = { db with benefits :=
        db.benefits.filter (fun r => !(r.policyId == pid)) ++ rows } := by
  cases hrows : benefitRowsOf pid (b :: bs) <;>
    simp [stageBenefits, hd, hrows, Except.map, DB.deleteBenefits] at h
  exact ⟨_, rfl, h.symm⟩

theorem stageExclusions_skip {pid : Nat} {d : VerifiedData} {db db2 : DB}
    (hn : isNonemptyList d.exclusions = false)
    (h : stageExclusions pid d db = Except.ok db2) : db2 = db := by
  cases hd : d.exclusions with
  | absent => simp [stageExclusions, hd] at h; exact h.symm
  | null => simp [stageExclusions, hd] at h; exact h.symm
  | val l =>
    cases l with
    | nil => simp [stageExclusions, hd] at h; exact h.symm
    | cons e es => rw [hd] at hn; simp [isNonemptyList] at hn

theorem stageExclusions_content {pid : Nat} {d : VerifiedData} {db db2 : DB}
    {e : ExclusionData} {es : List ExclusionData}
    (hd : d.exclusions = OptField.val (e :: es))
    (h : stageExclusions pid d db = Except.ok db2) :
    ∃ rows, exclusionRowsOf pid (e :: es) = Except.ok rows ∧
      db2 = { db with exclusions :=
        db.exclusions.filter (fun r => !(r.policyId == pid)) ++ rows } := by
  cases hrows : exclusionRowsOf pid (e :: es) <;>
    simp [stageExclusions, hd, hrows, Except.map, DB.deleteExclusions] at h
  exact ⟨_, rfl, h.symm⟩

theorem stageHealth_frame {pid : Nat} {d : VerifiedData} {db db2 : DB}
    (h : stageHealth pid d db = Except.ok db2) :
    db2.policies = db.policies ∧ db2.coverages = db.coverages ∧
    db2.nominees = db.nominees ∧ db2.benefits = db.benefits ∧
    db2.exclusions = db.exclusions ∧ db2.motorDetails = db.motorDetails ∧
    db2.extractedDocs = db.extractedDocs ∧ db2.jobs = db.jobs ∧
    db2.nextId = db.nextId := by
  unfold stageHealth at h
  split at h
  case isFalse => simp at h; subst h; exact ⟨rfl, rfl, rfl, rfl, rfl, rfl, rfl, rfl, rfl⟩
  case isTrue =>
    cases hh : healthDict d.health_details <;> rw [hh] at h <;>
      simp [Bind.bind, Except.bind] at h
    case ok hd =>
    cases hc : checkVarcharOpt 50 (OptField.get? hd.policy_type) <;> rw [hc] at h <;>
      simp [Bind.bind, Except.bind] at h
    cases hb : reqBool (OptField.getD true hd.cashless_facility) <;> rw [hb] at h <;>
      simp [Bind.bind, Except.bind] at h
    case ok cf =>
    have hu := upsertHealth_frame db pid (OptField.get? hd.policy_type)
      (to_decimal (OptField.get? hd.room_rent_limit))
      (to_decimal (OptField.get? hd.co_payment_percentage)) cf
    cases hm : OptField.get? hd.covered_members with
    | none =>
        rw [hm] at h; simp at h; subst h
        exact ⟨hu.1, hu.2.1, hu.2.2.1, hu.2.2.2.1, hu.2.2.2.2.1, hu.2.2.2.2.2.2.1,
               hu.2.2.2.2.2.2.2.1, hu.2.2.2.2.2.2.2.2.1, hu.2.2.2.2.2.2.2.2.2⟩
    | some l =>
        cases l with
        | nil =>
            rw [hm] at h; simp at h; subst h
            exact ⟨hu.1, hu.2.1, hu.2.2.1, hu.2.2.2.1, hu.2.2.2.2.1, hu.2.2.2.2.2.2.1,
                   hu.2.2.2.2.2.2.2.1, hu.2.2.2.2.2.2.2.2.1, hu.2.2.2.2.2.2.2.2.2⟩
        | cons m ms =>
            cases hr : memberRowsOf pid (m :: ms) <;>
              simp [hm, hr, Except.map, DB.deleteMembers] at h
            subst h
            exact ⟨hu.1, hu.2.1, hu.2.2.1, hu.2.2.2.1, hu.2.2.2.2.1, hu.2.2.2.2.2.2.1,
                   hu.2.2.2.2.2.2.2.1, hu.2.2.2.2.2.2.2.2.1, hu.2.2.2.2.2.2.2.2.2⟩

theorem stageHealth_skip {pid : Nat} {d : VerifiedData} {db db2 : DB}
    (hg : (OptField.get? d.insurance_type == some "HEALTH"
            && OptField.isPresent d.health_details) = false)
    (h : stageHealth pid d db = Except.ok db2) : db2 = db := by
  unfold stageHealth at h
  rw [hg] at h
  simp at h
  exact h.symm

theorem stageMotor_frame {pid : Nat} {d : VerifiedData} {db db2 : DB}
    (h : stageMotor pid d db = Except.ok db2) :
    db2.policies = db.policies ∧ db2.coverages = db.coverages ∧
    db2.nominees = db.nominees ∧ db2.benefits = db.benefits ∧
    db2.exclusions = db.exclusions ∧ db2.healthDetails = db.healthDetails ∧
    db2.coveredMembers = db.coveredMembers ∧ db2.extractedDocs = db.extractedDocs ∧
    db2.jobs = db.jobs ∧ db2.nextId = db.nextId := by
  unfold stageMotor at h
  split at h
  case isFalse => simp at h; subst h; exact ⟨rfl, rfl, rfl, rfl, rfl, rfl, rfl, rfl, rfl, rfl⟩
  case isTrue =>
    cases hm : motorDict d.motor_details <;> rw [hm] at h <;>
      simp [Bind.bind, Except.bind] at h
    case ok md =>
    cases h1 : reqBool (OptField.getD false md.has_zero_depreciation) <;> rw [h1] at h <;>
      simp [Bind.bind, Except.bind] at h
    cases h2 : reqBool (OptField.getD false md.has_engine_protection) <;> rw [h2] at h <;>
      simp [Bind.bind, Except.bind] at h
    cases h3 : reqBool (OptField.getD false md.has_roadside_assistance) <;> rw [h3] at h <;>
      simp [Bind.bind, Except.bind] at h
    subst h
    refine ⟨?_, ?_, ?_, ?_, ?_, ?_, ?_, ?_, ?_, ?_⟩ <;>
      (unfold upsertMotor; split <;> rfl)

theorem stageMotor_skip {pid : Nat} {d : VerifiedData} {db db2 : DB}
    (hg : (OptField.get? d.insurance_type == some "MOTOR"
            && OptField.isPresent d.motor_details) = false)
    (h : stageMotor pid d db = Except.ok db2) : db2 = db := by
  unfold stageMotor at h
  rw [hg] at h
  simp at h
  exact h.symm

theorem saveVerifiedData_ok {db : DB} {pid : Nat} {d : VerifiedData} {dbz : DB}
    (h : saveVerifiedData db pid d = Except.ok dbz) :
    ∃ db1 db2 db3 db4 db5 db6,
      stagePolicyFields pid d db = Except.ok db1 ∧
      stageCoverage pid d db1 = Except.ok db2 ∧
      stageNominees pid d db2 = Except.ok db3 ∧
      stageBenefits pid d db3 = Except.ok db4 ∧
      stageExclusions pid d db4 = Except.ok db5 ∧
      stageHealth pid d db5 = Except.ok db6 ∧
      stageMotor pid d db6 = Except.ok dbz := by
  unfold saveVerifiedData at h
  cases h1 : stagePolicyFields pid d db <;> rw [h1] at h <;>
    simp [Bind.bind, Except.bind] at h
  case ok db1 =>
  cases h2 : stageCoverage pid d db1 <;> rw [h2] at h <;>
    simp [Bind.bind, Except.bind] at h
  case ok db2 =>
  cases h3 : stageNominees pid d db2 <;> rw [h3] at h <;>
    simp [Bind.bind, Except.bind] at h
  case ok db3 =>
  cases h4 : stageBenefits pid d db3 <;> rw [h4] at h <;>
    simp [Bind.bind, Except.bind] at h
  case ok db4 =>
  cases h5 : stageExclusions pid d db4 <;> rw [h5] at h <;>
    simp [Bind.bind, Except.bind] at h
  case ok db5 =>
  cases h6 : stageHealth pid d db5 <;> rw [h6] at h <;>
    simp [Bind.bind, Except.bind] at h
  case ok db6 =>
  exact ⟨db1, db2, db3, db4, db5, db6, rfl, h2, h3, h4, h5, h6, h⟩

theorem stageNominees_frame {pid : Nat} {d : VerifiedData} {db db2 : DB}
    (h : stageNominees pid d db = Except.ok db2) :
    db2.policies = db.policies ∧ db2.coverages = db.coverages ∧
    db2.benefits = db.benefits ∧ db2.exclusions = db.exclusions ∧
    db2.healthDetails = db.healthDetails ∧ db2.coveredMembers = db.coveredMembers ∧
    db2.motorDetails = db.motorDetails ∧ db2.extractedDocs = db.extractedDocs ∧
    db2.jobs = db.jobs ∧ db2.nextId = db.nextId := by
  cases hd : d.nominees with
  | absent =>
      have e := stageNominees_skip (by simp [isNonemptyList, hd]) h
      subst e; exact ⟨rfl, rfl, rfl, rfl, rfl, rfl, rfl, rfl, rfl, rfl⟩
  | null =>
      have e := stageNominees_skip (by simp [isNonemptyList, hd]) h
      subst e; exact ⟨rfl, rfl, rfl, rfl, rfl, rfl, rfl, rfl, rfl, rfl⟩
  | val l =>
      cases l with
      | nil =>
          have e := stageNominees_skip (by simp [isNonemptyList, hd]) h
          subst e; exact ⟨rfl, rfl, rfl, rfl, rfl, rfl, rfl, rfl, rfl, rfl⟩
      | cons n ns =>
          obtain ⟨rows, -, e⟩ := stageNominees_content hd h
          subst e; exact ⟨rfl, rfl, rfl, rfl, rfl, rfl, rfl, rfl, rfl, rfl⟩

theorem stageBenefits_frame {pid : Nat} {d : VerifiedData} {db db2 : DB}
    (h : stageBenefits pid d db = Except.ok db2) :
    db2.policies = db.policies ∧ db2.coverages = db.coverages ∧
    db2.nominees = db.nominees ∧ db2.exclusions = db.exclusions ∧
    db2.healthDetails = db.healthDetails ∧ db2.coveredMembers = db.coveredMembers ∧
    db2.motorDetails = db.motorDetails ∧ db2.extractedDocs = db.extractedDocs ∧
    db2.jobs = db.jobs ∧ db2.nextId = db.nextId := by
  cases hd : d.benefits with
  | absent =>
      have e := stageBenefits_skip (by simp [isNonemptyList, hd]) h
      subst e; exact ⟨rfl, rfl, rfl, rfl, rfl, rfl, rfl, rfl, rfl, rfl⟩
  | null =>
      have e := stageBenefits_skip (by simp [isNonemptyList, hd]) h
      subst e; exact ⟨rfl, rfl, rfl, rfl, rfl, rfl, rfl, rfl, rfl, rfl⟩
  | val l =>
      cases l with
      | nil =>
          have e := stageBenefits_skip (by simp [isNonemptyList, hd]) h
          subst e; exact ⟨rfl, rfl, rfl, rfl, rfl, rfl, rfl, rfl, rfl, rfl⟩
      | cons b bs =>
          obtain ⟨rows, -, e⟩ := stageBenefits_content hd h
          subst e; exact ⟨rfl, rfl, rfl, rfl, rfl, rfl, rfl, rfl, rfl, rfl⟩

theorem stageExclusions_frame {pid : Nat} {d : VerifiedData} {db db2 : DB}
    (h : stageExclusions pid d db = Except.ok db2) :
    db2.policies = db.policies ∧ db2.coverages = db.coverages ∧
    db2.nominees = db.nominees ∧ db2.benefits = db.benefits ∧
    db2.healthDetails = db.healthDetails ∧ db2.coveredMembers = db.coveredMembers ∧
    db2.motorDetails = db.motorDetails ∧ db2.extractedDocs = db.extractedDocs ∧
    db2.jobs = db.jobs ∧ db2.nextId = db.nextId := by
  cases hd : d.exclusions with
  | absent =>
      have e := stageExclusions_skip (by simp [isNonemptyList, hd]) h
      subst e; exact ⟨rfl, rfl, rfl, rfl, rfl, rfl, rfl, rfl, rfl, rfl⟩
  | null =>
      have e := stageExclusions_skip (by simp [isNonemptyList, hd]) h
      subst e; exact ⟨rfl, rfl, rfl, rfl, rfl, rfl, rfl, rfl, rfl, rfl⟩
  | val l =>
      cases l with
      | nil =>
          have e := stageExclusions_skip (by simp [isNonemptyList, hd]) h
          subst e; exact ⟨rfl, rfl, rfl, rfl, rfl, rfl, rfl, rfl, rfl, rfl⟩
      | cons e1 es =>
          obtain ⟨rows, -, e⟩ := stageExclusions_content hd h
          subst e; exact ⟨rfl, rfl, rfl, rfl, rfl, rfl, rfl, rfl, rfl, rfl⟩

theorem nomineeRowsOf_length {pid : Nat} :
    ∀ (ns : List NomineeData) (rows : List NomineeRow),
      nomineeRowsOf pid ns = Except.ok rows →
      rows.length = (ns.filter (fun x => truthyStr (OptField.get? x.name))).length := by
  intro ns
  induction ns with
  | nil => intro rows h; simp [nomineeRowsOf] at h; simp [← h]
  | cons n rest ih =>
      intro rows h
      by_cases ht : truthyStr (OptField.get? n.name)
      · simp only [nomineeRowsOf, ht, if_true] at h
        cases h1 : reqVarchar 255 (OptField.get? n.name) <;> rw [h1] at h <;>
          simp [Bind.bind, Except.bind] at h
        cases h2 : checkVarcharOpt 100 (OptField.get? n.relationship) <;> rw [h2] at h <;>
          simp [Bind.bind, Except.bind] at h
        cases h3 : reqDec (to_decimal (OptField.getD 100 n.allocation_percentage)) <;>
          rw [h3] at h <;> simp [Bind.bind, Except.bind] at h
        cases h4 : nomineeRowsOf pid rest <;> rw [h4] at h <;>
          simp [Bind.bind, Except.bind] at h
        rw [← h]
        simp [List.filter_cons, ht, ih _ h4]
      · simp only [nomineeRowsOf, ht, if_false, Bool.false_eq_true] at h
        rw [List.filter_cons]
        simp only [ht]
        exact ih rows h

theorem benefitRowsOf_length {pid : Nat} :
    ∀ (bs : List BenefitData) (rows : List BenefitRow),
      benefitRowsOf pid bs = Except.ok rows →
      rows.length = (bs.filter (fun x => truthyStr (OptField.get? x.name))).length := by
  intro bs
  induction bs with
  | nil => intro rows h; simp [benefitRowsOf] at h; simp [← h]
  | cons b rest ih =>
      intro rows h
      by_cases ht : truthyStr (OptField.get? b.name)
      · simp only [benefitRowsOf, ht, if_true] at h
        cases h1 : reqVarchar 20 (OptField.getD "BASE" b.benefit_type) <;> rw [h1] at h <;>
          simp [Bind.bind, Except.bind] at h
        cases h2 : reqVarchar 255 (OptField.get? b.name) <;> rw [h2] at h <;>
          simp [Bind.bind, Except.bind] at h
        cases h3 : benefitRowsOf pid rest <;> rw [h3] at h <;>
          simp [Bind.bind, Except.bind] at h
        rw [← h]
        simp [List.filter_cons, ht, ih _ h3]
      · simp only [benefitRowsOf, ht, if_false, Bool.false_eq_true] at h
        rw [List.filter_cons]
        simp only [ht]
        exact ih rows h

theorem exclusionRowsOf_length {pid : Nat} :
    ∀ (es : List ExclusionData) (rows : List ExclusionRow),
      exclusionRowsOf pid es = Except.ok rows →
      rows.length = (es.filter (fun x => truthyStr (OptField.get? x.title))).length := by
  intro es
  induction es with
  | nil => intro rows h; simp [exclusionRowsOf] at h; simp [← h]
  | cons e rest ih =>
      intro rows h
      by_cases ht : truthyStr (OptField.get? e.title)
      · simp only [exclusionRowsOf, ht, if_true] at h
        cases h1 : reqVarchar 255 (OptField.get? e.title) <;> rw [h1] at h <;>
          simp [Bind.bind, Except.bind] at h
        cases h2 : reqText (OptField.getD "" e.description) <;> rw [h2] at h <;>
          simp [Bind.bind, Except.bind] at h
        cases h3 : exclusionRowsOf pid rest <;> rw [h3] at h <;>
          simp [Bind.bind, Except.bind] at h
        rw [← h]
        simp [List.filter_cons, ht, ih _ h3]
      · simp only [exclusionRowsOf, ht, if_false, Bool.false_eq_true] at h
        rw [List.filter_cons]
        simp only [ht]
        exact ih rows h

/-- C1: `_parse_json_response` parses strict JSON directly; otherwise strips
code-fence markers and trailing commas and re-parses; on repeated failure it
raises a `ValueError` (ParseError) and never returns data. The fenced and
unfenced trailing-comma inputs both parse to `{"a": 1}`, and `not json at all`
raises. -/
theorem parse_json_response_spec :
    (∀ s v, jsonLoads s = some v → parseJsonResponse s = Except.ok v) ∧
    (∀ s v, jsonLoads s = none → jsonLoads (cleanResponse s) = some v →
        parseJsonResponse s = Except.ok v) ∧
    (∀ s, jsonLoads s = none → jsonLoads (cleanResponse s) = none →
        parseJsonResponse s = Except.error parseFailMsg) ∧
    parseJsonResponse "```json\n\x7b\"a\":1,\x7d\n```" = Except.ok (JValue.obj [("a", JValue.num "1")]) ∧
    parseJsonResponse "\x7b\"a\":1,\x7d" = Except.ok (JValue.obj [("a", JValue.num "1")]) ∧
    parseJsonResponse "not json at all" = Except.error parseFailMsg := by
  refine ⟨?_, ?_, ?_, rfl, rfl, rfl⟩
  · intro s v h
    simp [parseJsonResponse, h]
  · intro s v h1 h2
    simp [parseJsonResponse, h1, h2]
  · intro s h1 h2
    simp [parseJsonResponse, h1, h2]

/-- Witness for C1 at the concrete unfenced trailing-comma input. -/
theorem parse_json_response_spec_witness :
    parseJsonResponse "\x7b\"a\":1,\x7d" = Except.ok (JValue.obj [("a", JValue.num "1")]) :=
  parse_json_response_spec.2.1 "\x7b\"a\":1,\x7d" (JValue.obj [("a", JValue.num "1")]) rfl rfl

/-- C9: `_convert_to_monthly_premium` returns the amount for MONTHLY,
amount/3 for QUARTERLY, amount/6 for HALF_YEARLY, amount/12 for YEARLY and 0
for any other frequency; 1200 YEARLY → 100, 300 QUARTERLY → 100,
600 HALF_YEARLY → 100, 100 MONTHLY → 100, unrecognized → 0. -/
theorem monthly_premium_normalization :
    (∀ a : ℚ,
      convert_to_monthly_premium (some a) (some "MONTHLY") = a ∧
      convert_to_monthly_premium (some a) (some "QUARTERLY") = a / 3 ∧
      convert_to_monthly_premium (some a) (some "HALF_YEARLY") = a / 6 ∧
      convert_to_monthly_premium (some a) (some "YEARLY") = a / 12) ∧
    (∀ (a : ℚ) (f : Option String),
      f ≠ some "MONTHLY" → f ≠ some "QUARTERLY" → f ≠ some "HALF_YEARLY" →
      f ≠ some "YEARLY" → convert_to_monthly_premium (some a) f = 0) ∧
    convert_to_monthly_premium (some 1200) (some "YEARLY") = 100 ∧
    convert_to_monthly_premium (some 300) (some "QUARTERLY") = 100 ∧
    convert_to_monthly_premium (some 600) (some "HALF_YEARLY") = 100 ∧
    convert_to_monthly_premium (some 100) (some "MONTHLY") = 100 ∧
    convert_to_monthly_premium (some 100) (some "WEEKLY") = 0 := by
  have huniv : ∀ a : ℚ,
      convert_to_monthly_premium (some a) (some "MONTHLY") = a ∧
      convert_to_monthly_premium (some a) (some "QUARTERLY") = a / 3 ∧
      convert_to_monthly_premium (some a) (some "HALF_YEARLY") = a / 6 ∧
      convert_to_monthly_premium (some a) (some "YEARLY") = a / 12 := by
    intro a
    by_cases h : a = 0 <;> simp [convert_to_monthly_premium, h]
  have hother : ∀ (a : ℚ) (f : Option String),
      f ≠ some "MONTHLY" → f ≠ some "QUARTERLY" → f ≠ some "HALF_YEARLY" →
      f ≠ some "YEARLY" → convert_to_monthly_premium (some a) f = 0 := by
    intro a f h1 h2 h3 h4
    by_cases h : a = 0 <;> simp [convert_to_monthly_premium, h, h1, h2, h3, h4]
  refine ⟨huniv, hother, ?_, ?_, ?_, ?_, ?_⟩
  · rw [(huniv 1200).2.2.2]; norm_num
  · rw [(huniv 300).2.1]; norm_num
  · rw [(huniv 600).2.2.1]; norm_num
  · exact (huniv 100).1
  · exact hother 100 (some "WEEKLY") (by decide) (by decide) (by decide) (by decide)

/-- Witness for C9 at amount 100 and the unrecognized frequency WEEKLY. -/
theorem monthly_premium_normalization_witness :
    convert_to_monthly_premium (some 100) (some "WEEKLY") = 0 :=
  monthly_premium_normalization.2.1 100 (some "WEEKLY")
    (by simp) (by simp) (by simp) (by simp)

/-- C6: a verification request for a missing or foreign-owned policy is
rejected 404; an owned policy whose extraction is not COMPLETED is rejected
400; the commit is attempted exactly when both preconditions hold. -/
theorem verify_preconditions :
    ∀ (db : DB) (uid pid : Nat) (d : VerifiedData) (t : Nat),
      (db.policies.find? (fun p => p.id == pid && p.userId == uid) = none →
        policyVerifyPost db uid pid d t = (db, 404)) ∧
      (∀ p, db.policies.find? (fun p => p.id == pid && p.userId == uid) = some p →
        p.ai_extraction_status ≠ EStatus.COMPLETED →
        policyVerifyPost db uid pid d t = (db, 400)) ∧
      (∀ p, db.policies.find? (fun p => p.id == pid && p.userId == uid) = some p →
        p.ai_extraction_status = EStatus.COMPLETED →
        (∃ db2, saveVerifiedData db pid d = Except.ok db2 ∧
            policyVerifyPost db uid pid d t = (verifySuccessMark db2 pid t, 200)) ∨
        (∃ e, saveVerifiedData db pid d = Except.error e ∧
            policyVerifyPost db uid pid d t = (db, 500))) := by
  intro db uid pid d t
  refine ⟨?_, ?_, ?_⟩
  · intro h
    simp [policyVerifyPost, h]
  · intro p hp hs
    simp [policyVerifyPost, hp, hs]
  · intro p hp hs
    cases hsv : saveVerifiedData db pid d with
    | ok db2 => exact Or.inl ⟨db2, rfl, by simp [policyVerifyPost, hp, hs, hsv]⟩
    | error e => exact Or.inr ⟨e, rfl, by simp [policyVerifyPost, hp, hs, hsv]⟩

/-- Witness for C6: an empty database rejects any verify request as 404. -/
theorem verify_preconditions_witness :
    policyVerifyPost emptyDB 1 1 (onlyTypeData OptField.absent) 0 = (emptyDB, 404) :=
  (verify_preconditions emptyDB 1 1 (onlyTypeData OptField.absent) 0).1 rfl

/-- C2: if any step of `_save_verified_data` raises during an eligible
commit, `transaction.atomic` rolls the whole transaction back: the response
is 500 and the database — every child table and every policy row, including
`is_verified_by_user` and `verified_at` — is exactly as before. -/
theorem verify_commit_atomic :
    ∀ (db : DB) (uid pid : Nat) (d : VerifiedData) (t : Nat) (e : String)
      (p : PolicyRow),
      db.policies.find? (fun q => q.id == pid && q.userId == uid) = some p →
      p.ai_extraction_status = EStatus.COMPLETED →
      saveVerifiedData db pid d = Except.error e →
      policyVerifyPost db uid pid d t = (db, 500) ∧
      (policyVerifyPost db uid pid d t).1.policies = db.policies ∧
      (policyVerifyPost db uid pid d t).1.coverages = db.coverages ∧
      (policyVerifyPost db uid pid d t).1.nominees = db.nominees ∧
      (policyVerifyPost db uid pid d t).1.benefits = db.benefits ∧
      (policyVerifyPost db uid pid d t).1.exclusions = db.exclusions ∧
      (policyVerifyPost db uid pid d t).1.healthDetails = db.healthDetails ∧
      (policyVerifyPost db uid pid d t).1.coveredMembers = db.coveredMembers ∧
      (policyVerifyPost db uid pid d t).1.motorDetails = db.motorDetails := by
  intro db uid pid d t e p hp hs hsv
  have h : policyVerifyPost db uid pid d t = (db, 500) := by
    simp [policyVerifyPost, hp, hs, hsv]
  exact ⟨h, by rw [h], by rw [h], by rw [h], by rw [h], by rw [h], by rw [h],
         by rw [h], by rw [h]⟩

set_option maxRecDepth 20000 in
/-- Witness for C2: committing five benefits whose third has a 256-character
name fails the `varchar(255)` column and rolls everything back. -/
theorem verify_commit_atomic_witness :
    policyVerifyPost dbOne 7 1 fiveBenefitsBad3 9 = (dbOne, 500) :=
  (verify_commit_atomic dbOne 7 1 fiveBenefitsBad3 9 varcharMsg completedPolicy
    rfl rfl rfl).1

/-- C8: a document over 20 MB is rejected with the size-limit error before
any upload attempt or model query is made. -/
theorem oversized_rejected :
    ∀ (env : GeminiEnv) (sizeBytes : Nat),
      (sizeBytes : ℚ) / (1024 * 1024) > 20 →
      uploadToGemini sizeBytes env.uploads =
        { result := Except.error sizeLimitMsg, sleeps := [], attemptsMade := 0 } ∧
      (extractPolicyPreview env sizeBytes).1 = Except.error sizeLimitMsg ∧
      (extractPolicyPreview env sizeBytes).2.uploadAttempts = 0 ∧
      (extractPolicyPreview env sizeBytes).2.modelCalls = 0 := by
  intro env sizeBytes h
  have hu : uploadToGemini sizeBytes env.uploads =
      { result := Except.error sizeLimitMsg, sleeps := [], attemptsMade := 0 } := by
    simp [uploadToGemini, h]
  refine ⟨hu, ?_, ?_, ?_⟩ <;> simp [extractPolicyPreview, hu]

/-- Witness for C8 at the spec's 25 MB scenario. -/
theorem oversized_rejected_witness :
    (extractPolicyPreview envOk (25 * 1024 * 1024)).1 = Except.error sizeLimitMsg ∧
    (extractPolicyPreview envOk (25 * 1024 * 1024)).2.modelCalls = 0 :=
  ⟨(oversized_rejected envOk (25 * 1024 * 1024) (by norm_num)).2.1,
   (oversized_rejected envOk (25 * 1024 * 1024) (by norm_num)).2.2.2⟩

/-- C5 (amended): when a nominees/benefits/exclusions list is present and
non-empty, the commit replaces the collection wholesale: all existing child
rows for the policy are deleted and exactly one row is inserted per entry
with a truthy name/title, others silently skipped.  However, an absent, null
or EMPTY list leaves the existing collection untouched (the
`if 'k' in data and data['k']` guard), contrary to the original claim's
"including when a list in verifiedData is empty". -/
theorem children_replace_on_verify :
    ∀ (db : DB) (pid : Nat) (d : VerifiedData) (dbz : DB),
      saveVerifiedData db pid d = Except.ok dbz →
      ((∀ n ns, d.nominees = OptField.val (n :: ns) →
          ∃ rows, nomineeRowsOf pid (n :: ns) = Except.ok rows ∧
            rows.length = ((n :: ns).filter
              (fun x => truthyStr (OptField.get? x.name))).length ∧
            dbz.nominees = db.nominees.filter (fun r => !(r.policyId == pid)) ++ rows) ∧
        (isNonemptyList d.nominees = false → dbz.nominees = db.nominees)) ∧
      ((∀ b bs, d.benefits = OptField.val (b :: bs) →
          ∃ rows, benefitRowsOf pid (b :: bs) = Except.ok rows ∧
            rows.length = ((b :: bs).filter
              (fun x => truthyStr (OptField.get? x.name))).length ∧
            dbz.benefits = db.benefits.filter (fun r => !(r.policyId == pid)) ++ rows) ∧
        (isNonemptyList d.benefits = false → dbz.benefits = db.benefits)) ∧
      ((∀ e es, d.exclusions = OptField.val (e :: es) →
          ∃ rows, exclusionRowsOf pid (e :: es) = Except.ok rows ∧
            rows.length = ((e :: es).filter
              (fun x => truthyStr (OptField.get? x.title))).length ∧
            dbz.exclusions = db.exclusions.filter (fun r => !(r.policyId == pid)) ++ rows) ∧
        (isNonemptyList d.exclusions = false → dbz.exclusions = db.exclusions)) := by
  intro db pid d dbz h
  obtain ⟨db1, db2, db3, db4, db5, db6, h1, h2, h3, h4, h5, h6, h7⟩ := saveVerifiedData_ok h
  have e1 := stagePolicyFields_ok h1
  obtain ⟨c, e2⟩ := stageCoverage_ok h2
  have fc := upsertCoverage_frame db1 c
  have f3 := stageNominees_frame h3
  have f4 := stageBenefits_frame h4
  have f5 := stageExclusions_frame h5
  have f6 := stageHealth_frame h6
  have f7 := stageMotor_frame h7
  have hn1 : db1.nominees = db.nominees := by rw [e1]; rfl
  have hb1 : db1.benefits = db.benefits := by rw [e1]; rfl
  have he1 : db1.exclusions = db.exclusions := by rw [e1]; rfl
  have hn2 : db2.nominees = db.nominees := by rw [e2]; rw [fc.2.1]; exact hn1
  have hb2 : db2.benefits = db.benefits := by rw [e2]; rw [fc.2.2.1]; exact hb1
  have he2 : db2.exclusions = db.exclusions := by rw [e2]; rw [fc.2.2.2.1]; exact he1
  have hnz : dbz.nominees = db3.nominees := by rw [f7.2.2.1, f6.2.2.1, f5.2.2.1, f4.2.2.1]
  have hbz : dbz.benefits = db4.benefits := by rw [f7.2.2.2.1, f6.2.2.2.1, f5.2.2.2.1]
  have hez : dbz.exclusions = db5.exclusions := by rw [f7.2.2.2.2.1, f6.2.2.2.2.1]
  have hb3 : db3.benefits = db.benefits := by rw [f3.2.2.1]; exact hb2
  have he3 : db3.exclusions = db.exclusions := by rw [f3.2.2.2.1]; exact he2
  have he4 : db4.exclusions = db.exclusions := by rw [f4.2.2.2.1]; exact he3
  refine ⟨⟨?_, ?_⟩, ⟨?_, ?_⟩, ⟨?_, ?_⟩⟩
  · intro n ns hd
    obtain ⟨rows, hr, e3⟩ := stageNominees_content hd h3
    refine ⟨rows, hr, nomineeRowsOf_length _ _ hr, ?_⟩
    rw [hnz, e3]
    simp [hn2]
  · intro hf
    have e3 := stageNominees_skip hf h3
    rw [hnz, e3]
    exact hn2
  · intro b bs hd
    obtain ⟨rows, hr, e4⟩ := stageBenefits_content hd h4
    refine ⟨rows, hr, benefitRowsOf_length _ _ hr, ?_⟩
    rw [hbz, e4]
    simp [hb3]
  · intro hf
    have e4 := stageBenefits_skip hf h4
    rw [hbz, e4]
    exact hb3
  · intro e es hd
    obtain ⟨rows, hr, e5⟩ := stageExclusions_content hd h5
    refine ⟨rows, hr, exclusionRowsOf_length _ _ hr, ?_⟩
    rw [hez, e5]
    simp [he4]
  · intro hf
    have e5 := stageExclusions_skip hf h5
    rw [hez, e5]
    exact he4

/-- Witness for C5: committing the empty nominees list on a database with a
stored nominee leaves the collection unchanged. -/
theorem children_replace_on_verify_witness :
    dbAfterEmptyNominees.nominees = dbWithNominee.nominees :=
  (children_replace_on_verify dbWithNominee 1 emptyNomineesData dbAfterEmptyNominees
    rfl).1.2 rfl

/-- C5 counterexample: committing a verifiedData whose `nominees` field is
the empty list succeeds (200) yet the previously stored nominee row is still
there — the stored collection does not reflect the empty list. -/
theorem children_replace_counterexample :
    emptyNomineesData.nominees = OptField.val [] ∧
    (policyVerifyPost dbWithNominee 7 1 emptyNomineesData 4).2 = 200 ∧
    (policyVerifyPost dbWithNominee 7 1 emptyNomineesData 4).1.nominees
      = [existingNominee] :=
  ⟨rfl, rfl, rfl⟩

/-- C10 (amended): the verification commit imposes no enum-validity
constraint on `insurance_type` — with the other sections omitted, a
verifiedData whose `insurance_type` is absent, null, or any string of at most
20 characters (the `varchar(20)` column bound) commits successfully, stores
the value (or null) verbatim, sets `is_verified_by_user`, and skips the
type-specific sub-entity steps; values longer than 20 characters instead fail
the column write and the commit rolls back (see the counterexample). -/
theorem insurance_type_not_validated :
    ∀ (db : DB) (uid pid t : Nat) (it : OptField String) (p : PolicyRow),
      db.policies.find? (fun q => q.id == pid && q.userId == uid) = some p →
      p.ai_extraction_status = EStatus.COMPLETED →
      (∀ s, OptField.get? it = some s → s.length ≤ 20) →
      (policyVerifyPost db uid pid (onlyTypeData it) t).2 = 200 ∧
      (∀ q ∈ (policyVerifyPost db uid pid (onlyTypeData it) t).1.policies,
          q.id = pid → q.insurance_type = OptField.get? it ∧
            q.is_verified_by_user = true) ∧
      (policyVerifyPost db uid pid (onlyTypeData it) t).1.nominees = db.nominees ∧
      (policyVerifyPost db uid pid (onlyTypeData it) t).1.benefits = db.benefits ∧
      (policyVerifyPost db uid pid (onlyTypeData it) t).1.exclusions = db.exclusions ∧
      (policyVerifyPost db uid pid (onlyTypeData it) t).1.healthDetails = db.healthDetails ∧
      (policyVerifyPost db uid pid (onlyTypeData it) t).1.coveredMembers = db.coveredMembers ∧
      (policyVerifyPost db uid pid (onlyTypeData it) t).1.motorDetails = db.motorDetails := by
  intro db uid pid t it p hp hs hlen
  have hc : checkVarcharOpt 20 (OptField.get? it) = Except.ok () := by
    cases it with
    | absent => rfl
    | null => rfl
    | val s => simp [OptField.get?, checkVarcharOpt, hlen s rfl]
  have h1 : stagePolicyFields pid (onlyTypeData it) db =
      Except.ok (db.updatePolicy pid (typeOnlyUpdate it)) := by
    simp only [stagePolicyFields, onlyTypeData]
    rw [hc]
    simp only [checkVarcharOpt, OptField.get?, Bind.bind, Except.bind]
    rfl
  have h2 : ∀ db0 : DB, stageCoverage pid (onlyTypeData it) db0 =
      Except.ok (upsertCoverage db0 (emptyCovRow pid)) := by
    intro db0
    simp [stageCoverage, onlyTypeData, coverageDict, emptyCoverageData,
          emptyCovRow, checkVarcharOpt, OptField.get?, to_decimal, parse_date,
          Bind.bind, Except.bind]
  have h3 : ∀ db0 : DB, stageNominees pid (onlyTypeData it) db0 = Except.ok db0 := by
    intro db0; simp [stageNominees, onlyTypeData]
  have h4 : ∀ db0 : DB, stageBenefits pid (onlyTypeData it) db0 = Except.ok db0 := by
    intro db0; simp [stageBenefits, onlyTypeData]
  have h5 : ∀ db0 : DB, stageExclusions pid (onlyTypeData it) db0 = Except.ok db0 := by
    intro db0; simp [stageExclusions, onlyTypeData]
  have h6 : ∀ db0 : DB, stageHealth pid (onlyTypeData it) db0 = Except.ok db0 := by
    intro db0; simp [stageHealth, onlyTypeData, OptField.isPresent]
  have h7 : ∀ db0 : DB, stageMotor pid (onlyTypeData it) db0 = Except.ok db0 := by
    intro db0; simp [stageMotor, onlyTypeData, OptField.isPresent]
  have hsave : saveVerifiedData db pid (onlyTypeData it) =
      Except.ok (upsertCoverage (db.updatePolicy pid (typeOnlyUpdate it)) (emptyCovRow pid)) := by
    simp [saveVerifiedData, h1, h2, h3, h4, h5, h6, h7, Bind.bind, Except.bind]
  have hpost : policyVerifyPost db uid pid (onlyTypeData it) t =
      (verifySuccessMark
        (upsertCoverage (db.updatePolicy pid (typeOnlyUpdate it)) (emptyCovRow pid)) pid t,
       200) := by
    simp [policyVerifyPost, hp, hs, hsave]
  have hfr := upsertCoverage_frame (db.updatePolicy pid (typeOnlyUpdate it)) (emptyCovRow pid)
  refine ⟨by rw [hpost], ?_, ?_, ?_, ?_, ?_, ?_, ?_⟩
  · rw [hpost]
    intro q hq hqid
    have hpol : (verifySuccessMark
        (upsertCoverage (db.updatePolicy pid (typeOnlyUpdate it)) (emptyCovRow pid)) pid t).policies
        = (db.policies.map (fun r => if r.id == pid then typeOnlyUpdate it r else r)).map
            (fun r => if r.id == pid then markVerified t r else r) := by
      have e0 : (verifySuccessMark
          (upsertCoverage (db.updatePolicy pid (typeOnlyUpdate it)) (emptyCovRow pid)) pid t).policies
          = (upsertCoverage (db.updatePolicy pid (typeOnlyUpdate it))
              (emptyCovRow pid)).policies.map
              (fun r => if r.id == pid then markVerified t r else r) := rfl
      rw [e0, hfr.1]
      rfl
    rw [hpol] at hq
    obtain ⟨q1, hq1, rfl⟩ := List.mem_map.mp hq
    obtain ⟨q0, hq0, rfl⟩ := List.mem_map.mp hq1
    cases hid : q0.id == pid with
    | true =>
        simp [hid, typeOnlyUpdate, markVerified]
    | false =>
        simp [hid] at hqid ⊢
        rw [hqid] at hid
        simp at hid
  · rw [hpost]; exact hfr.2.1
  · rw [hpost]; exact hfr.2.2.1
  · rw [hpost]; exact hfr.2.2.2.1
  · rw [hpost]; exact hfr.2.2.2.2.1
  · rw [hpost]; exact hfr.2.2.2.2.2.1
  · rw [hpost]; exact hfr.2.2.2.2.2.2.1

/-- Witness for C10 at the 12-character out-of-enum value UNKNOWN_KIND. -/
theorem insurance_type_not_validated_witness :
    (policyVerifyPost dbOne 7 1 (onlyTypeData (OptField.val "UNKNOWN_KIND")) 3).2 = 200 :=
  (insurance_type_not_validated dbOne 7 1 3 (OptField.val "UNKNOWN_KIND") completedPolicy
    rfl rfl (by intro s hs; simp [OptField.get?] at hs; subst hs; decide)).1

set_option maxRecDepth 20000 in
/-- C10 counterexample: a 25-character `insurance_type` value makes the
commit fail (500) with the database unchanged and the flag still clear, so
the commit does not succeed for every out-of-enum string. -/
theorem insurance_type_not_validated_counterexample :
    (String.mk (List.replicate 25 'X')).length = 25 ∧
    policyVerifyPost dbOne 7 1
      (onlyTypeData (OptField.val (String.mk (List.replicate 25 'X')))) 5 = (dbOne, 500) ∧
    completedPolicy.is_verified_by_user = false :=
  ⟨rfl, rfl, rfl⟩

/-! ### Helper lemmas about the upload retry loop -/

/-- One retry of the loop on a transient outcome, while the doubled delay is
within the 30-second cap (both the broken-pipe branch's `retry_delay *= 2`
and the generic branch's `min(retry_delay * 2, 30)` then agree). -/
theorem uploadGo_transient_step (outcomes : Nat → UploadOutcome)
    (rem idx delay : Nat) (ht : transientOutcome (outcomes idx) = true)
    (hr : 0 < rem) (hd : delay * 2 ≤ 30) :
    uploadGo outcomes (rem + 1) idx delay =
      { result := (uploadGo outcomes rem (idx + 1) (delay * 2)).result,
        sleeps := delay :: (uploadGo outcomes rem (idx + 1) (delay * 2)).sleeps,
        attemptsMade := (uploadGo outcomes rem (idx + 1) (delay * 2)).attemptsMade + 1 } := by
  cases ho : outcomes idx with
  | success => rw [ho] at ht; simp [transientOutcome] at ht
  | brokenPipe m => simp [uploadGo, ho, hr]
  | err m =>
      have htm : isTransientMsg m = true := by
        rw [ho] at ht; simpa [transientOutcome] using ht
      simp [uploadGo, ho, htm, hr, Nat.min_eq_left hd]

/-- One retry of the loop on a transient outcome, next delay existential
(used when the doubled delay would exceed the cap). -/
theorem uploadGo_transient_step2 (outcomes : Nat → UploadOutcome)
    (rem idx delay : Nat) (ht : transientOutcome (outcomes idx) = true)
    (hr : 0 < rem) :
    ∃ d2, uploadGo outcomes (rem + 1) idx delay =
      { result := (uploadGo outcomes rem (idx + 1) d2).result,
        sleeps := delay :: (uploadGo outcomes rem (idx + 1) d2).sleeps,
        attemptsMade := (uploadGo outcomes rem (idx + 1) d2).attemptsMade + 1 } := by
  cases ho : outcomes idx with
  | success => rw [ho] at ht; simp [transientOutcome] at ht
  | brokenPipe m => exact ⟨delay * 2, by simp [uploadGo, ho, hr]⟩
  | err m =>
      have htm : isTransientMsg m = true := by
        rw [ho] at ht; simpa [transientOutcome] using ht
      exact ⟨min (delay * 2) 30, by simp [uploadGo, ho, htm, hr]⟩

/-- A non-transient generic error raises immediately, with no sleep and no
further attempt, regardless of the attempts remaining. -/
theorem uploadGo_nontransient (outcomes : Nat → UploadOutcome)
    (rem idx delay : Nat) (m : String)
    (ho : outcomes idx = UploadOutcome.err m) (hm : isTransientMsg m = false) :
    uploadGo outcomes (rem + 1) idx delay =
      { result := Except.error ("Failed to upload PDF to AI service: " ++ m),
        sleeps := [], attemptsMade := 1 } := by
  simp [uploadGo, ho, hm]

/-- On the last attempt a transient outcome raises a non-empty error. -/
theorem uploadGo_last (outcomes : Nat → UploadOutcome) (idx delay : Nat)
    (ht : transientOutcome (outcomes idx) = true) :
    ∃ e, uploadGo outcomes 1 idx delay =
      { result := Except.error e, sleeps := [], attemptsMade := 1 } ∧ e ≠ "" := by
  cases ho : outcomes idx with
  | success => rw [ho] at ht; simp [transientOutcome] at ht
  | brokenPipe m => exact ⟨brokenPipeFinalMsg, by simp [uploadGo, ho], by decide⟩
  | err m =>
      refine ⟨"Failed to upload PDF to AI service: " ++ m, by simp [uploadGo, ho], ?_⟩
      intro hemp
      have hd := congrArg String.data hemp
      rw [String.data_append] at hd
      simp at hd

/-- Five transient attempts: the loop performs backoff sleeps 3, 6, 12, 24
(each at most 30), makes exactly 5 upload calls, and fails with a non-empty
error. -/
theorem uploadGo_all_transient (outcomes : Nat → UploadOutcome)
    (h5 : ∀ i, i < 5 → transientOutcome (outcomes i) = true) :
    ∃ e, uploadGo outcomes 5 0 3 =
        { result := Except.error e, sleeps := [3, 6, 12, 24], attemptsMade := 5 } ∧
      e ≠ "" := by
  have s1 := uploadGo_transient_step outcomes 4 0 3 (h5 0 (by norm_num))
    (by norm_num) (by norm_num)
  have s2 := uploadGo_transient_step outcomes 3 1 6 (h5 1 (by norm_num))
    (by norm_num) (by norm_num)
  have s3 := uploadGo_transient_step outcomes 2 2 12 (h5 2 (by norm_num))
    (by norm_num) (by norm_num)
  obtain ⟨d4, s4⟩ := uploadGo_transient_step2 outcomes 1 3 24 (h5 3 (by norm_num))
    (by norm_num)
  obtain ⟨e, hlast, hne⟩ := uploadGo_last outcomes 4 d4 (h5 4 (by norm_num))
  norm_num at s1 s2 s3 s4
  refine ⟨e, ?_, hne⟩
  rw [s1, s2, s3, s4, hlast]

/-- Truncation to 1000 characters keeps a non-empty message non-empty. -/
theorem take1000_ne_empty {e : String} (h : e ≠ "") :
    String.mk (e.data.take 1000) ≠ "" := by
  intro hc
  have hdz : e.data.take 1000 = [] := congrArg String.data hc
  have hnil : e.data = [] := by
    rcases List.take_eq_nil_iff.mp hdz with h0 | h0
    · exact absurd h0 (by norm_num)
    · exact h0
  apply h
  cases e with
  | mk l =>
      simp only at hnil
      subst hnil
      rfl

/-- C3: transient upload faults (broken pipe, 503, "temporarily
unavailable", address-assignment) are retried up to 5 attempts with
exponential backoff 3, 6, 12, 24 seconds (all capped at 30); a non-transient
error after k transient ones fails immediately at attempt k+1 with no
further retry; and when all 5 attempts are transient the background job
records FAILED with a non-empty error while the policy row and its document
survive. -/
theorem upload_retry_policy :
    (∀ outcomes : Nat → UploadOutcome,
      (∀ i, i < 5 → transientOutcome (outcomes i) = true) →
      ∃ e, uploadGo outcomes 5 0 3 =
          { result := Except.error e, sleeps := [3, 6, 12, 24], attemptsMade := 5 } ∧
        e ≠ "" ∧ ∀ s ∈ [3, 6, 12, 24], s ≤ 30) ∧
    (∀ (outcomes : Nat → UploadOutcome) (k : Nat) (m : String),
      k < 5 → (∀ i, i < k → transientOutcome (outcomes i) = true) →
      outcomes k = UploadOutcome.err m → isTransientMsg m = false →
      uploadGo outcomes 5 0 3 =
        { result := Except.error ("Failed to upload PDF to AI service: " ++ m),
          sleeps := List.take k [3, 6, 12, 24], attemptsMade := k + 1 }) ∧
    (∀ (env : GeminiEnv) (db : DB) (pid t : Nat) (p : PolicyRow),
      db.findPolicy pid = some p →
      ¬((p.docSize : ℚ) / (1024 * 1024) > 20) →
      (∀ i, i < 5 → transientOutcome (env.uploads i) = true) →
      ∀ q ∈ db.policies,
        ∃ q', q' ∈ (processPolicyExtractionBackground env db pid t).policies ∧
          q'.id = q.id ∧ q'.document = q.document ∧ q'.docSize = q.docSize ∧
          q'.name = q.name ∧
          (q.id = pid → q'.ai_extraction_status = EStatus.FAILED ∧
            ∃ e, q'.ai_extraction_error = some e ∧ e ≠ "")) := by
  refine ⟨?_, ?_, ?_⟩
  · intro outcomes h5
    obtain ⟨e, he, hne⟩ := uploadGo_all_transient outcomes h5
    exact ⟨e, he, hne, by decide⟩
  · intro outcomes k m hk htr ho hm
    interval_cases k
    · have h0 := uploadGo_nontransient outcomes 4 0 3 m ho hm
      norm_num at h0
      rw [h0]
      rfl
    · have s1 := uploadGo_transient_step outcomes 4 0 3 (htr 0 (by norm_num))
        (by norm_num) (by norm_num)
      have h1 := uploadGo_nontransient outcomes 3 1 6 m ho hm
      norm_num at s1 h1
      rw [s1, h1]
      rfl
    · have s1 := uploadGo_transient_step outcomes 4 0 3 (htr 0 (by norm_num))
        (by norm_num) (by norm_num)
      have s2 := uploadGo_transient_step outcomes 3 1 6 (htr 1 (by norm_num))
        (by norm_num) (by norm_num)
      have h2 := uploadGo_nontransient outcomes 2 2 12 m ho hm
      norm_num at s1 s2 h2
      rw [s1, s2, h2]
      rfl
    · have s1 := uploadGo_transient_step outcomes 4 0 3 (htr 0 (by norm_num))
        (by norm_num) (by norm_num)
      have s2 := uploadGo_transient_step outcomes 3 1 6 (htr 1 (by norm_num))
        (by norm_num) (by norm_num)
      have s3 := uploadGo_transient_step outcomes 2 2 12 (htr 2 (by norm_num))
        (by norm_num) (by norm_num)
      have h3 := uploadGo_nontransient outcomes 1 3 24 m ho hm
      norm_num at s1 s2 s3 h3
      rw [s1, s2, s3, h3]
      rfl
    · have s1 := uploadGo_transient_step outcomes 4 0 3 (htr 0 (by norm_num))
        (by norm_num) (by norm_num)
      have s2 := uploadGo_transient_step outcomes 3 1 6 (htr 1 (by norm_num))
        (by norm_num) (by norm_num)
      have s3 := uploadGo_transient_step outcomes 2 2 12 (htr 2 (by norm_num))
        (by norm_num) (by norm_num)
      obtain ⟨d4, s4⟩ := uploadGo_transient_step2 outcomes 1 3 24 (htr 3 (by norm_num))
        (by norm_num)
      have h4 := uploadGo_nontransient outcomes 0 4 d4 m ho hm
      norm_num at s1 s2 s3 s4 h4
      rw [s1, s2, s3, s4, h4]
      rfl
  · intro env db pid t p hfind hsize htr q hq
    obtain ⟨e, hupl, hne⟩ := uploadGo_all_transient env.uploads htr
    have hut : uploadToGemini p.docSize env.uploads = uploadGo env.uploads 5 0 3 := by
      simp [uploadToGemini, hsize]
    have hext : (extractPolicyPreview env p.docSize).1 = Except.error e := by
      simp [extractPolicyPreview, hut, hupl]
    have hbg : processPolicyExtractionBackground env db pid t =
        (db.updatePolicy pid procUpdate).updatePolicy pid (failUpdate e) := by
      simp only [processPolicyExtractionBackground, hfind, hext]
    refine ⟨(fun r => if r.id == pid then failUpdate e r else r)
        ((fun r => if r.id == pid then procUpdate r else r) q), ?_, ?_⟩
    · rw [hbg]
      exact List.mem_map_of_mem _ (List.mem_map_of_mem _ hq)
    · cases hid : q.id == pid with
      | true =>
          simp [hid, procUpdate, failUpdate]
          exact fun _ => take1000_ne_empty hne
      | false =>
          simp [hid]
          intro hqp
          rw [hqp] at hid
          simp at hid

/-- Witness for C3: five consecutive 503 responses exhaust the retries with
backoff 3, 6, 12, 24 and a non-empty final error. -/
theorem upload_retry_policy_witness :
    ∃ e, uploadGo transient503 5 0 3 =
        { result := Except.error e, sleeps := [3, 6, 12, 24], attemptsMade := 5 } ∧
      e ≠ "" ∧ ∀ s ∈ [3, 6, 12, 24], s ≤ 30 :=
  upload_retry_policy.1 transient503 (fun _ _ => rfl)

/-- C4: a classifier response that does not strip-and-uppercase to exactly
LIFE/HEALTH/MOTOR collapses to OTHER; with a successful upload and a passing
validity check, the pipeline then raises the category-rejection error, the
background job marks the policy FAILED, and no ExtractedDocument row is
written. -/
theorem category_rejection :
    ∀ (r : String) (env : GeminiEnv) (db : DB) (pid t : Nat) (p : PolicyRow),
      pyUpper (pyStrip r) ≠ "LIFE" → pyUpper (pyStrip r) ≠ "HEALTH" →
      pyUpper (pyStrip r) ≠ "MOTOR" →
      identifyInsuranceType r = "OTHER" ∧
      (env.identifyText = r → env.uploads 0 = UploadOutcome.success →
        (validateInsuranceDocument env.validateText).1 = true →
        db.findPolicy pid = some p →
        ¬((p.docSize : ℚ) / (1024 * 1024) > 20) →
        (extractPolicyPreview env p.docSize).1 = Except.error categoryRejectMsg ∧
        (processPolicyExtractionBackground env db pid t).extractedDocs = db.extractedDocs ∧
        (∀ q ∈ db.policies,
          ∃ q', q' ∈ (processPolicyExtractionBackground env db pid t).policies ∧
            q'.id = q.id ∧
            (q.id = pid → q'.ai_extraction_status = EStatus.FAILED))) := by
  intro r env db pid t p h1 h2 h3
  have hoth : identifyInsuranceType r = "OTHER" := by
    simp [identifyInsuranceType, h1, h2, h3]
  refine ⟨hoth, ?_⟩
  intro hir hu0 hval hfind hsize
  have hut : uploadToGemini p.docSize env.uploads =
      { result := Except.ok (), sleeps := [], attemptsMade := 1 } := by
    simp [uploadToGemini, hsize, uploadGo, hu0]
  have hext : (extractPolicyPreview env p.docSize).1 = Except.error categoryRejectMsg := by
    rw [← hir] at hoth
    simp [extractPolicyPreview, hut, hval, hoth]
  have hbg : processPolicyExtractionBackground env db pid t =
      (db.updatePolicy pid procUpdate).updatePolicy pid
        (failUpdate categoryRejectMsg) := by
    simp only [processPolicyExtractionBackground, hfind, hext]
  refine ⟨hext, ?_, ?_⟩
  · rw [hbg]
    rfl
  · intro q hq
    refine ⟨(fun x => if x.id == pid then failUpdate categoryRejectMsg x else x)
        ((fun x => if x.id == pid then procUpdate x else x) q), ?_, ?_⟩
    · rw [hbg]
      exact List.mem_map_of_mem _ (List.mem_map_of_mem _ hq)
    · cases hid : q.id == pid with
      | true => simp [hid, procUpdate, failUpdate]
      | false =>
          simp [hid]
          intro hqp
          rw [hqp] at hid
          simp at hid

/-- Witness for C4 at the literal classifier response OTHER. -/
theorem category_rejection_witness :
    identifyInsuranceType "OTHER" = "OTHER" ∧
    (extractPolicyPreview envOther completedPolicy.docSize).1 =
      Except.error categoryRejectMsg ∧
    (processPolicyExtractionBackground envOther dbOne 1 0).extractedDocs =
      dbOne.extractedDocs :=
  have h := category_rejection "OTHER" envOther dbOne 1 0 completedPolicy
    (by decide) (by decide) (by decide)
  ⟨h.1, (h.2 rfl rfl rfl rfl (by norm_num [completedPolicy])).1,
   (h.2 rfl rfl rfl rfl (by norm_num [completedPolicy])).2.1⟩

/-! ### Invariant preservation for the system state machine -/

theorem eq_of_mem_of_id_eq {l : List PolicyRow}
    (h : (l.map PolicyRow.id).Nodup) {a b : PolicyRow}
    (ha : a ∈ l) (hb : b ∈ l) (hid : a.id = b.id) : a = b := by
  induction l with
  | nil => cases ha
  | cons x xs ih =>
      rw [List.map_cons, List.nodup_cons] at h
      rcases List.mem_cons.mp ha with rfl | ha'
      · rcases List.mem_cons.mp hb with rfl | hb'
        · rfl
        · exfalso
          apply h.1
          have hm : b.id ∈ xs.map PolicyRow.id := List.mem_map_of_mem _ hb'
          rw [← hid] at hm
          exact hm
      · rcases List.mem_cons.mp hb with rfl | hb'
        · exfalso
          apply h.1
          have hm : a.id ∈ xs.map PolicyRow.id := List.mem_map_of_mem _ ha'
          rw [hid] at hm
          exact hm
        · exact ih h.2 ha' hb'

theorem inv_emptyDB : Inv emptyDB := by
  refine ⟨?_, ?_, ?_, ?_, ?_, ?_⟩ <;> simp [emptyDB, Inv]

theorem inv_upload (db : DB) (uid : Nat) (nm : String) (doc size : Nat)
    (h : Inv db) : Inv (policyUploadPost db uid nm doc size).1 := by
  obtain ⟨hA, hB, hC, hD, hE, hF⟩ := h
  unfold Inv policyUploadPost
  refine ⟨?_, ?_, ?_, ?_, ?_, ?_⟩
  · intro p hp
    rcases List.mem_append.mp hp with hp' | hp'
    · exact Nat.lt_succ_of_lt (hA p hp')
    · rw [List.mem_singleton.mp hp']
      exact Nat.lt_succ_self _
  · intro pid hp
    rcases List.mem_append.mp hp with hp' | hp'
    · exact Nat.lt_succ_of_lt (hB pid hp')
    · rw [List.mem_singleton.mp hp']
      exact Nat.lt_succ_self _
  · intro pid hpid p hp hidp
    rcases List.mem_append.mp hpid with hj | hj
    · rcases List.mem_append.mp hp with hq | hq
      · exact hC pid hj p hq hidp
      · rw [List.mem_singleton.mp hq] at hidp
        exact absurd (hidp ▸ hB pid hj) (Nat.lt_irrefl _)
    · rw [List.mem_singleton.mp hj] at hidp
      rcases List.mem_append.mp hp with hq | hq
      · exact absurd (hidp ▸ hA p hq) (Nat.lt_irrefl _)
      · rw [List.mem_singleton.mp hq]
        exact ⟨rfl, rfl⟩
  · intro p hp hfl
    rcases List.mem_append.mp hp with hp' | hp'
    · exact hD p hp' hfl
    · rw [List.mem_singleton.mp hp'] at hfl
      cases hfl
  · rw [List.map_append, List.nodup_append]
    refine ⟨hE, List.nodup_singleton _, ?_⟩
    intro a ha hb
    rw [List.map_singleton, List.mem_singleton] at hb
    obtain ⟨r, hr, rfl⟩ := List.mem_map.mp ha
    have hlt := hA r hr
    rw [hb] at hlt
    exact absurd hlt (Nat.lt_irrefl _)
  · rw [List.nodup_append]
    refine ⟨hF, List.nodup_singleton _, ?_⟩
    intro a ha hb
    rw [List.mem_singleton] at hb
    rw [hb] at ha
    exact absurd (hB _ ha) (Nat.lt_irrefl _)

theorem inv_erase (db : DB) (pid : Nat) (h : Inv db) :
    Inv { db with jobs := db.jobs.erase pid } := by
  obtain ⟨hA, hB, hC, hD, hE, hF⟩ := h
  refine ⟨hA, ?_, ?_, hD, hE, hF.erase pid⟩
  · intro q hq
    exact hB q (List.mem_of_mem_erase hq)
  · intro q hq p hp hidp
    exact hC q (List.mem_of_mem_erase hq) p hp hidp

/-- Invariant preservation for the background-job step shape: the job for
`pid` is consumed and the policy row for `pid` is rewritten by an update `u`
that preserves the row id and the verified flag. -/
theorem inv_bg_shape {db db2 : DB} {pid : Nat} {u : PolicyRow → PolicyRow}
    (h : Inv db) (hjob : pid ∈ db.jobs)
    (hpol : db2.policies = db.policies.map (fun r => if r.id == pid then u r else r))
    (hjobs : db2.jobs = db.jobs.erase pid)
    (hn : db2.nextId = db.nextId)
    (hid : ∀ r, (u r).id = r.id)
    (hflag : ∀ r, (u r).is_verified_by_user = r.is_verified_by_user) :
    Inv db2 := by
  obtain ⟨hA, hB, hC, hD, hE, hF⟩ := h
  refine ⟨?_, ?_, ?_, ?_, ?_, ?_⟩
  · intro p hp
    rw [hpol] at hp
    obtain ⟨r, hr, rfl⟩ := List.mem_map.mp hp
    rw [hn]
    by_cases hc : (r.id == pid) = true <;> simp [hc, hid] <;> exact hA r hr
  · intro q hq
    rw [hjobs] at hq
    rw [hn]
    exact hB q (List.mem_of_mem_erase hq)
  · intro q hq p hp hidp
    rw [hjobs] at hq
    obtain ⟨hne, hmem⟩ := (hF.mem_erase_iff).mp hq
    rw [hpol] at hp
    obtain ⟨r, hr, rfl⟩ := List.mem_map.mp hp
    by_cases hc : (r.id == pid) = true
    · exfalso
      simp only [hc, if_true] at hidp
      rw [hid r] at hidp
      have hrid : r.id = pid := by simpa using hc
      rw [hrid] at hidp
      exact hne hidp.symm
    · simp only [hc] at hidp ⊢
      rw [if_neg (by simpa using hc)] at hidp ⊢
      exact hC q hmem r hr hidp
  · intro p hp hfl
    rw [hpol] at hp
    obtain ⟨r, hr, rfl⟩ := List.mem_map.mp hp
    by_cases hc : (r.id == pid) = true
    · exfalso
      simp only [hc, if_true] at hfl
      rw [hflag r] at hfl
      have hrid : r.id = pid := by simpa using hc
      have := (hC pid hjob r hr hrid).2
      rw [this] at hfl
      cases hfl
    · rw [if_neg (by simpa using hc)] at hfl ⊢
      exact hD r hr hfl
  · rw [hpol]
    have heq : (db.policies.map (fun r => if r.id == pid then u r else r)).map PolicyRow.id
        = db.policies.map PolicyRow.id := by
      rw [List.map_map]
      apply List.map_congr_left
      intro r _
      by_cases hc : (r.id == pid) = true <;> simp [hc, hid, Function.comp]
    rw [heq]
    exact hE
  · rw [hjobs]
    exact hF.erase pid

/-- Invariant preservation for the verification-commit step shape: a policy
`p` owned row with COMPLETED extraction exists for `pid`, and every row with
that id is rewritten by an update `u` preserving id and extraction status,
setting the verified flag and the ghost commit bit. -/
theorem inv_verify_shape {db db2 : DB} {pid t : Nat} {u : PolicyRow → PolicyRow}
    (h : Inv db) (p : PolicyRow) (hp : p ∈ db.policies) (hpid : p.id = pid)
    (hst : p.ai_extraction_status = EStatus.COMPLETED)
    (hpol : db2.policies = db.policies.map (fun r => if r.id == pid then u r else r))
    (hjobs : db2.jobs = db.jobs)
    (hn : db2.nextId = db.nextId)
    (hid : ∀ r, (u r).id = r.id)
    (hstat : ∀ r, (u r).ai_extraction_status = r.ai_extraction_status)
    (hflag : ∀ r, (u r).is_verified_by_user = true)
    (hghost : ∀ r, (u r).everVerifiedCommit = true) :
    Inv db2 := by
  obtain ⟨hA, hB, hC, hD, hE, hF⟩ := h
  have hnotjob : pid ∉ db.jobs := by
    intro hin
    have hpen := (hC pid hin p hp hpid).1
    rw [hst] at hpen
    cases hpen
  refine ⟨?_, ?_, ?_, ?_, ?_, ?_⟩
  · intro q hq
    rw [hpol] at hq
    obtain ⟨r, hr, rfl⟩ := List.mem_map.mp hq
    rw [hn]
    by_cases hc : (r.id == pid) = true <;> simp [hc, hid] <;> exact hA r hr
  · intro q hq
    rw [hjobs] at hq
    rw [hn]
    exact hB q hq
  · intro q hq p2 hp2 hidp
    rw [hjobs] at hq
    rw [hpol] at hp2
    obtain ⟨r, hr, rfl⟩ := List.mem_map.mp hp2
    by_cases hc : (r.id == pid) = true
    · exfalso
      simp only [hc, if_true] at hidp
      rw [hid r] at hidp
      have hrid : r.id = pid := by simpa using hc
      rw [hrid] at hidp
      rw [hidp] at hnotjob
      exact hnotjob hq
    · rw [if_neg (by simpa using hc)] at hidp ⊢
      exact hC q hq r hr hidp
  · intro p2 hp2 hfl
    rw [hpol] at hp2
    obtain ⟨r, hr, rfl⟩ := List.mem_map.mp hp2
    by_cases hc : (r.id == pid) = true
    · simp only [hc, if_true]
      have hrid : r.id = pid := by simpa using hc
      have hreq : r = p := eq_of_mem_of_id_eq hE hr hp (by rw [hrid, hpid])
      refine ⟨?_, hghost r⟩
      rw [hstat r, hreq, hst]
    · rw [if_neg (by simpa using hc)] at hfl ⊢
      exact hD r hr hfl
  · rw [hpol]
    have heq : (db.policies.map (fun r => if r.id == pid then u r else r)).map PolicyRow.id
        = db.policies.map PolicyRow.id := by
      rw [List.map_map]
      apply List.map_congr_left
      intro r _
      by_cases hc : (r.id == pid) = true <;> simp [hc, hid, Function.comp]
    rw [heq]
    exact hE
  · rw [hjobs]
    exact hF

theorem map_ite_comp (l : List PolicyRow) (pid : Nat) (f g : PolicyRow → PolicyRow)
    (hfid : ∀ r, (f r).id = r.id) :
    (l.map (fun r => if r.id == pid then f r else r)).map
        (fun r => if r.id == pid then g r else r)
      = l.map (fun r => if r.id == pid then g (f r) else r) := by
  rw [List.map_map]
  apply List.map_congr_left
  intro r _
  by_cases hc : (r.id == pid) = true <;> simp [Function.comp, hc, hfid]

theorem inv_step (db : DB) (s : Step) (hInv : Inv db) : Inv (stepDB db s) := by
  cases s with
  | upload uid nm doc size =>
      exact inv_upload db uid nm doc size hInv
  | bgExtract pid env t =>
      by_cases hc : db.jobs.contains pid
      · have hmem : pid ∈ db.jobs := by simpa using hc
        simp only [stepDB, hc, if_true]
        have hfr : DB.findPolicy { db with jobs := db.jobs.erase pid } pid
            = DB.findPolicy db pid := rfl
        cases hf : DB.findPolicy db pid with
        | none =>
            simp only [processPolicyExtractionBackground, hfr, hf]
            exact inv_erase db pid hInv
        | some p =>
            simp only [processPolicyExtractionBackground, hfr, hf]
            cases hx : (extractPolicyPreview env p.docSize).1 with
            | ok data =>
                simp only [hx]
                have hfed := upsertExtractedDoc_frame
                  (DB.updatePolicy { db with jobs := db.jobs.erase pid } pid procUpdate)
                  { policyId := pid, raw_text := "", structured_data := data,
                    extraction_model := "gemini-2.0-flash-exp" }
                refine inv_bg_shape (u := fun r => doneUpdate t (procUpdate r)) hInv hmem
                  ?_ ?_ ?_ (fun r => rfl) (fun r => rfl)
                · rw [show (DB.updatePolicy (upsertExtractedDoc
                      (DB.updatePolicy { db with jobs := db.jobs.erase pid } pid procUpdate)
                      { policyId := pid, raw_text := "", structured_data := data,
                        extraction_model := "gemini-2.0-flash-exp" }) pid
                      (doneUpdate t)).policies = (upsertExtractedDoc
                      (DB.updatePolicy { db with jobs := db.jobs.erase pid } pid procUpdate)
                      { policyId := pid, raw_text := "", structured_data := data,
                        extraction_model := "gemini-2.0-flash-exp" }).policies.map
                      (fun r => if r.id == pid then doneUpdate t r else r) from rfl]
                  rw [hfed.1]
                  exact map_ite_comp db.policies pid _ _ (fun r => rfl)
                · rw [show (DB.updatePolicy (upsertExtractedDoc
                      (DB.updatePolicy { db with jobs := db.jobs.erase pid } pid procUpdate)
                      { policyId := pid, raw_text := "", structured_data := data,
                        extraction_model := "gemini-2.0-flash-exp" }) pid
                      (doneUpdate t)).jobs = (upsertExtractedDoc
                      (DB.updatePolicy { db with jobs := db.jobs.erase pid } pid procUpdate)
                      { policyId := pid, raw_text := "", structured_data := data,
                        extraction_model := "gemini-2.0-flash-exp" }).jobs from rfl]
                  rw [hfed.2.1]
                  rfl
                · rw [show (DB.updatePolicy (upsertExtractedDoc
                      (DB.updatePolicy { db with jobs := db.jobs.erase pid } pid procUpdate)
                      { policyId := pid, raw_text := "", structured_data := data,
                        extraction_model := "gemini-2.0-flash-exp" }) pid
                      (doneUpdate t)).nextId = (upsertExtractedDoc
                      (DB.updatePolicy { db with jobs := db.jobs.erase pid } pid procUpdate)
                      { policyId := pid, raw_text := "", structured_data := data,
                        extraction_model := "gemini-2.0-flash-exp" }).nextId from rfl]
                  rw [hfed.2.2]
                  rfl
            | error e =>
                simp only [hx]
                refine inv_bg_shape (u := fun r => failUpdate e (procUpdate r)) hInv hmem
                  ?_ ?_ ?_ (fun r => rfl) (fun r => rfl)
                · exact map_ite_comp db.policies pid _ _ (fun r => rfl)
                · rfl
                · rfl
      · simp only [stepDB, hc, if_false]
        exact hInv
  | verify uid pid d t =>
      simp only [stepDB]
      cases hf : db.policies.find? (fun p => p.id == pid && p.userId == uid) with
      | none =>
          simp only [policyVerifyPost, hf]
          exact hInv
      | some p =>
          simp only [policyVerifyPost, hf]
          by_cases hst : p.ai_extraction_status = EStatus.COMPLETED
          · rw [if_neg (by simp [hst])]
            cases hsv : saveVerifiedData db pid d with
            | error e => exact hInv
            | ok db2 =>
                show Inv (verifySuccessMark db2 pid t)
                have hpmem : p ∈ db.policies := List.mem_of_find?_eq_some hf
                have hpred := List.find?_some hf
                rw [Bool.and_eq_true] at hpred
                have hpid : p.id = pid := by simpa using hpred.1
                obtain ⟨a1, a2, a3, a4, a5, a6, s1, s2, s3, s4, s5, s6, s7⟩ :=
                  saveVerifiedData_ok hsv
                have e1 := stagePolicyFields_ok s1
                obtain ⟨cov, e2⟩ := stageCoverage_ok s2
                have fc := upsertCoverage_frame a1 cov
                have f3 := stageNominees_frame s3
                have f4 := stageBenefits_frame s4
                have f5 := stageExclusions_frame s5
                have f6 := stageHealth_frame s6
                have f7 := stageMotor_frame s7
                have hpol2 : db2.policies = db.policies.map (fun r =>
                    if r.id == pid then policyFieldsUpdate d r else r) := by
                  rw [f7.1, f6.1, f5.1, f4.1, f3.1, e2, fc.1, e1]
                  rfl
                have hjobs2 : db2.jobs = db.jobs := by
                  rw [f7.2.2.2.2.2.2.2.2.1, f6.2.2.2.2.2.2.2.1, f5.2.2.2.2.2.2.2.2.1,
                      f4.2.2.2.2.2.2.2.2.1, f3.2.2.2.2.2.2.2.2.1, e2,
                      fc.2.2.2.2.2.2.2.2.1, e1]
                  rfl
                have hnext2 : db2.nextId = db.nextId := by
                  rw [f7.2.2.2.2.2.2.2.2.2, f6.2.2.2.2.2.2.2.2, f5.2.2.2.2.2.2.2.2.2,
                      f4.2.2.2.2.2.2.2.2.2, f3.2.2.2.2.2.2.2.2.2, e2,
                      fc.2.2.2.2.2.2.2.2.2, e1]
                  rfl
                refine inv_verify_shape (t := t)
                  (u := fun r => markVerified t (policyFieldsUpdate d r)) hInv p hpmem hpid hst
                  ?_ ?_ ?_ (fun r => rfl) (fun r => rfl) (fun r => rfl) (fun r => rfl)
                · show db2.policies.map (fun r => if r.id == pid then markVerified t r else r) = _
                  rw [hpol2]
                  exact map_ite_comp db.policies pid _ _ (fun r => rfl)
                · exact hjobs2
                · exact hnext2
          · rw [if_pos hst]
            exact hInv

theorem inv_reachable : ∀ db : DB, Reachable db → Inv db := by
  intro db h
  induction h with
  | init => exact inv_emptyDB
  | step s _ ih => exact inv_step _ s ih

/-- C7: in every reachable state, a policy whose `is_verified_by_user` flag
is set has `ai_extraction_status = COMPLETED` and carries the ghost
`everVerifiedCommit` bit, which is set exactly by a successful verification
commit (`verifySuccessMark`, reached only from the 200 branch of
`PolicyVerifyView.post`); and the upload handler creates every policy with
the flag clear in PENDING state. -/
theorem verified_flag_invariant :
    (∀ db : DB, Reachable db → ∀ p ∈ db.policies, p.is_verified_by_user = true →
        p.ai_extraction_status = EStatus.COMPLETED ∧ p.everVerifiedCommit = true) ∧
    (∀ (db : DB) (uid : Nat) (nm : String) (doc size : Nat),
        ∃ newp : PolicyRow,
          (policyUploadPost db uid nm doc size).1.policies = db.policies ++ [newp] ∧
          newp.is_verified_by_user = false ∧
          newp.ai_extraction_status = EStatus.PENDING ∧
          newp.everVerifiedCommit = false) := by
  constructor
  · intro db h p hp hfl
    exact (inv_reachable db h).2.2.2.1 p hp hfl
  · intro db uid nm doc size
    exact ⟨_, rfl, rfl, rfl, rfl⟩

/-- Witness for C7 on the reachable state obtained by uploading a policy,
running its background extraction, and committing a verification. -/
theorem verified_flag_invariant_witness :
    ∀ p ∈ (stepDB (stepDB (stepDB emptyDB (Step.upload 7 "n" 11 4096))
        (Step.bgExtract 0 envOk 1)) (Step.verify 7 0 (onlyTypeData OptField.absent) 2)).policies,
      p.is_verified_by_user = true →
      p.ai_extraction_status = EStatus.COMPLETED ∧ p.everVerifiedCommit = true :=
  verified_flag_invariant.1 _
    (Reachable.step _ (Reachable.step _ (Reachable.step _ Reachable.init)))

end NomiSafe
